import Mathlib

/-!
# Verification of the ProTrader strategy-evaluation and backtest engine

Shallow embedding of the trading-bot engine (`src/bots/*.py`, `src/app.py`).

Conventions of the embedding:
* Python/numpy floating-point values are modelled by `PF`, rationals extended
  with `nan`, `+inf` and `-inf`.  Raw OHLCV data carries plain rationals
  (market data contains no NaN); NaN/inf arise only from the arithmetic the
  code performs (division by zero, rolling windows on too-short series),
  exactly where numpy/pandas produce them.  numpy float operations never
  raise; comparisons against NaN are `false`.
* Python exceptions (out-of-bounds `iloc[-1]` indexing on an empty frame)
  are modelled by `Except String`; each bot's `analyze` catches them,
  mirroring the `try/except` in the source.
* `pandas` rolling windows use `min_periods = window`, so a window that is
  not yet full yields NaN; `rolling(...).iloc[-1]` is modelled by a
  "last rolling value" function on the column list.
* Wall-clock timestamps (`datetime.now()`) and the auditing `indicators`
  dictionary attached to each signal carry no decision content and are not
  modelled on the `Signal` value.
-/

namespace ProTrader

/-- Python/numpy float: a rational, or one of the IEEE special values that the
engine's arithmetic can produce. -/
inductive PF where
  | nan : PF
  | pinf : PF
  | ninf : PF
  | num (q : ℚ) : PF
deriving DecidableEq

namespace PF

/-- IEEE negation. -/
def neg : PF → PF
  | nan => nan
  | pinf => ninf
  | ninf => pinf
  | num q => num (-q)

/-- IEEE addition (`inf + -inf = nan`, NaN absorbs). -/
def add : PF → PF → PF
  | nan, _ => nan
  | _, nan => nan
  | pinf, ninf => nan
  | ninf, pinf => nan
  | pinf, _ => pinf
  | _, pinf => pinf
  | ninf, _ => ninf
  | _, ninf => ninf
  | num a, num b => num (a + b)

/-- IEEE subtraction. -/
def sub (a b : PF) : PF := add a (neg b)

/-- IEEE multiplication (`inf * 0 = nan`, NaN absorbs, sign rules). -/
def mul : PF → PF → PF
  | nan, _ => nan
  | _, nan => nan
  | pinf, pinf => pinf
  | pinf, ninf => ninf
  | ninf, pinf => ninf
  | ninf, ninf => pinf
  | pinf, num b => if b = 0 then nan else if 0 < b then pinf else ninf
  | num a, pinf => if a = 0 then nan else if 0 < a then pinf else ninf
  | ninf, num b => if b = 0 then nan else if 0 < b then ninf else pinf
  | num a, ninf => if a = 0 then nan else if 0 < a then ninf else pinf
  | num a, num b => num (a * b)

/-- IEEE division with numpy semantics: `x/0` is `±inf` for `x ≠ 0` and
`0/0 = nan`; `x/±inf = 0`; `inf/inf = nan`.  (numpy emits a warning but does
not raise.) -/
def div : PF → PF → PF
  | nan, _ => nan
  | _, nan => nan
  | pinf, pinf => nan
  | pinf, ninf => nan
  | ninf, pinf => nan
  | ninf, ninf => nan
  | pinf, num b => if 0 ≤ b then pinf else ninf
  | ninf, num b => if 0 ≤ b then ninf else pinf
  | num _, pinf => num 0
  | num _, ninf => num 0
  | num a, num b =>
      if b = 0 then (if a = 0 then nan else if 0 < a then pinf else ninf)
      else num (a / b)

/-- IEEE strict less-than: any comparison involving NaN is `false`. -/
def lt : PF → PF → Bool
  | nan, _ => false
  | _, nan => false
  | ninf, ninf => false
  | ninf, _ => true
  | _, ninf => false
  | pinf, _ => false
  | num _, pinf => true
  | num a, num b => decide (a < b)

/-- Python comparison `a > b` is `b < a` (both are `false` on NaN). -/
def gt (a b : PF) : Bool := lt b a

end PF

open PF (nan pinf ninf num)

/-- One OHLCV bar of a market series (the `date` column carries no decision
content and is omitted). -/
structure Bar where
  open_ : ℚ
  high : ℚ
  low : ℚ
  close : ℚ
  volume : ℚ
deriving DecidableEq

/-- The `SignalType` enum of `base_bot.py` (values `'buy'`, `'sell'`, `'hold'`). -/
inductive SignalType where
  | buy | sell | hold
deriving DecidableEq

/-- The `TradingSignal` of `base_bot.py` as used by every bot.  The wall-clock
`timestamp` and the audit-only `indicators` dict are not modelled. -/
structure Signal where
  signal_type : SignalType
  symbol : String
  confidence : ℚ
  entry_price : ℚ
  stop_loss : ℚ
  take_profit : ℚ
  position_size : ℚ
  reason : String
deriving DecidableEq

/-- The `market_data` mapping passed to `analyze`; only the
`news_sentiment` key is ever read (by the news bot, via `.get(k, 0)`). -/
structure MarketCtx where
  news_sentiment : Option ℚ
deriving DecidableEq

/-- Pandas `.iloc[-1]`: last element, raising `IndexError` on an empty frame. -/
def lastE : List α → Except String α
  | [] => .error "single positional indexer is out-of-bounds"
  | a :: l => .ok ((a :: l).getLast (by simp))

/-- Largest element of a list of rationals (`0` for `[]`; callers only use
nonempty lists). -/
def qmax : List ℚ → ℚ
  | [] => 0
  | x :: xs => xs.foldl max x

/-- Smallest element of a list of rationals (`0` for `[]`). -/
def qmin : List ℚ → ℚ
  | [] => 0
  | x :: xs => xs.foldl min x

/-- Sum of a list of rationals. -/
def qsum (l : List ℚ) : ℚ := l.foldl (· + ·) 0

/-- The trailing window of length `n`: the last `n` elements. -/
def lastWindow (n : ℕ) (xs : List ℚ) : List ℚ := xs.drop (xs.length - n)

/-- Pandas `series.rolling(window=n).max().iloc[-1]`: NaN until `n` observations
are available, else the max of the trailing `n` elements. -/
def rollingLastMax (n : ℕ) (xs : List ℚ) : PF :=
  if xs.length < n then nan else num (qmax (lastWindow n xs))

/-- Pandas `series.rolling(window=n).min().iloc[-1]`. -/
def rollingLastMin (n : ℕ) (xs : List ℚ) : PF :=
  if xs.length < n then nan else num (qmin (lastWindow n xs))

/-- Pandas `series.rolling(window=n).mean().iloc[-1]`. -/
def rollingLastMean (n : ℕ) (xs : List ℚ) : PF :=
  if xs.length < n then nan else num (qsum (lastWindow n xs) / n)

/-- Pandas `series.rolling(window=n).std().iloc[-1]` squared: the sample variance
(`ddof = 1`) of the trailing window, NaN until the window is full.  The bots
only ever compare prices against `mean ± k·std`; those comparisons are
encoded exactly on the variance (see `bbLowerLt`/`bbUpperGt`), since `std`
itself is irrational. -/
def rollingLastVar (n : ℕ) (xs : List ℚ) : PF :=
  if xs.length < n then nan
  else
    let w := lastWindow n xs
    let m := qsum w / n
    num (qsum (w.map (fun x => (x - m) ^ 2)) / (n - 1))

/-- Pandas `delta = series.diff()` then `delta.where(delta > 0, 0)`: the positive
part of the bar-to-bar difference.  The leading `diff` NaN compares false
and is replaced by `0`, so the result is NaN-free. -/
def gainsList (closes : List ℚ) : List ℚ :=
  match closes with
  | [] => []
  | _ :: _ => 0 :: (List.zipWith (fun prev cur => max (cur - prev) 0) closes closes.tail)

/-- Pandas `(-delta.where(delta < 0, 0))`: the positive part of the downward move. -/
def lossesList (closes : List ℚ) : List ℚ :=
  match closes with
  | [] => []
  | _ :: _ => 0 :: (List.zipWith (fun prev cur => max (prev - cur) 0) closes closes.tail)

/-- The RSI pipeline shared by the momentum and mean-reversion bots:
`rs = gain.rolling(p).mean() / loss.rolling(p).mean()`,
`rsi = 100 - 100/(1 + rs)`, taken at the last index.  `0/0` gives NaN and
`g/0` gives `+inf` (whence `rsi = 100`), as in numpy. -/
def rsiLast (period : ℕ) (closes : List ℚ) : PF :=
  let g := rollingLastMean period (gainsList closes)
  let l := rollingLastMean period (lossesList closes)
  let rs := PF.div g l
  PF.sub (num 100) (PF.div (num 100) (PF.add (num 1) rs))

/-- Pandas `series.ewm(span=s).mean().iloc[-1]` with pandas defaults
(`adjust=True`): the `(1-α)^j`-weighted average of the series read backwards,
`α = 2/(s+1)`.  Maintains weighted numerator and total weight while folding
forwards.  (Callers only apply it to nonempty series.) -/
def ewmLast (span : ℚ) (xs : List ℚ) : ℚ :=
  let β := (span - 1) / (span + 1)
  let p := xs.foldl (fun (acc : ℚ × ℚ) x => (acc.1 * β + x, acc.2 * β + 1)) (0, 0)
  p.1 / p.2

/-- Pandas `series.pct_change(k).iloc[-1]`: relative change over `k` bars, NaN when
fewer than `k+1` observations exist. -/
def pctChangeLast (k : ℕ) (xs : List ℚ) : PF :=
  if xs.length < k + 1 then nan
  else
    let cur := xs.getD (xs.length - 1) 0
    let prev := xs.getD (xs.length - 1 - k) 0
    PF.div (num (cur - prev)) (num prev)

/-- The common shape of every bot's `analyze` output: either a degenerate
Hold signal (confidence 0, zero stop/target) or a Buy/Sell at the close of
the last bar, with the bot's fixed confidence constant and its stop/target
functions of the entry price. -/
def SigShape (data : List Bar) (conf : ℚ) (stopB tpB stopS tpS : ℚ → ℚ)
    (s : Signal) : Prop :=
  (s.signal_type = .hold ∧ s.confidence = 0 ∧ s.stop_loss = 0 ∧ s.take_profit = 0) ∨
  (∃ b, data.getLast? = some b ∧ s.entry_price = b.close ∧ s.confidence = conf ∧
    ((s.signal_type = .buy ∧ s.stop_loss = stopB b.close ∧ s.take_profit = tpB b.close) ∨
     (s.signal_type = .sell ∧ s.stop_loss = stopS b.close ∧ s.take_profit = tpS b.close)))

/-! ## MomentumBot (`src/bots/momentum_bot.py`)

Config: `momentum_period 14`, `breakout_period 20`, `volume_threshold 1.5`,
`min_confidence 0.65`, `rsi_oversold 30`, `rsi_overbought 70`. -/

namespace MomentumBot

/-- The indicator mapping returned by `MomentumBot.calculate_indicators`. -/
structure Ind where
  rsi : PF
  resistance : PF
  support : PF
  volume_ratio : PF
  price : ℚ
deriving DecidableEq

/-- Source `MomentumBot.calculate_indicators`.  Every `.iloc[-1]` raises exactly
when the frame is empty; otherwise rolling values may be NaN but no
exception occurs. -/
def calculate_indicators (data : List Bar) : Except String Ind :=
  match data with
  | [] => .error "single positional indexer is out-of-bounds"
  | b :: rest =>
    let latest := (b :: rest).getLast (by simp)
    let closes := (b :: rest).map Bar.close
    let highs := (b :: rest).map Bar.high
    let lows := (b :: rest).map Bar.low
    let volumes := (b :: rest).map Bar.volume
    let avg_volume := rollingLastMean 20 volumes
    .ok {
      rsi := rsiLast 14 closes
      resistance := rollingLastMax 20 highs
      support := rollingLastMin 20 lows
      volume_ratio :=
        if PF.gt avg_volume (num 0) then PF.div (num latest.volume) avg_volume else num 1
      price := latest.close }

/-- Source `MomentumBot.get_risk_parameters`: 2.5% stop, 5% target. -/
def get_risk_parameters (entry_price : ℚ) (signal_type : SignalType) : ℚ × ℚ :=
  if signal_type = .buy then
    (entry_price * (1 - 0.025), entry_price * (1 + 0.05))
  else
    (entry_price * (1 + 0.025), entry_price * (1 - 0.05))

/-- Source `MomentumBot._create_hold_signal`. -/
def create_hold_signal (symbol : String) (price : ℚ) (reason : String) : Signal :=
  { signal_type := .hold, symbol, confidence := 0, entry_price := price,
    stop_loss := 0, take_profit := 0, position_size := 0, reason }

/-- The branch logic of `MomentumBot.analyze` (lines 38–77): bullish
breakout / bearish breakdown / hold, given the computed indicators and the
latest bar.  The formatted breakout levels inside the human-readable reason
strings are abbreviated (string formatting carries no decision content). -/
def decide_signal (symbol : String) (ind : Ind) (latest : Bar) : Signal :=
  let bullish := PF.gt (num latest.close) ind.resistance
    && PF.lt ind.rsi (num 70) && PF.gt ind.volume_ratio (num 1.5)
  let bearish := PF.lt (num latest.close) ind.support
    && PF.gt ind.rsi (num 30) && PF.gt ind.volume_ratio (num 1.5)
  if bullish then
    let rp := get_risk_parameters latest.close .buy
    { signal_type := .buy, symbol, confidence := 0.75,
      entry_price := latest.close, stop_loss := rp.1, take_profit := rp.2,
      position_size := 0, reason := "Bullish breakout above resistance" }
  else if bearish then
    let rp := get_risk_parameters latest.close .sell
    { signal_type := .sell, symbol, confidence := 0.75,
      entry_price := latest.close, stop_loss := rp.1, take_profit := rp.2,
      position_size := 0, reason := "Bearish breakdown below support" }
  else create_hold_signal symbol latest.close "No momentum signal"

/-- Body of `MomentumBot.analyze` inside the `try:` block. -/
def analyze_core (symbol : String) (data : List Bar) (_ctx : MarketCtx) :
    Except String Signal :=
  match calculate_indicators data with
  | .error e => .error e
  | .ok ind =>
    match lastE data with
    | .error e => .error e
    | .ok latest => .ok (decide_signal symbol ind latest)

/-- Source `MomentumBot.analyze`: the `try/except` boundary converting any fault
into a Hold signal whose reason records the error. -/
def analyze (symbol : String) (data : List Bar) (ctx : MarketCtx) : Signal :=
  match analyze_core symbol data ctx with
  | .ok s => s
  | .error e => create_hold_signal symbol 0 ("Error: " ++ e)

/-- Source `MomentumBot.validate_signal`: confidence floor 0.65. -/
def validate_signal (signal : Signal) (_ctx : MarketCtx) : Bool :=
  decide ((0.65 : ℚ) ≤ signal.confidence)

/-- Source `MomentumBot.calculate_position_size`: risk budget over per-share risk,
capped at 25% of portfolio; 0 when per-share risk is 0. -/
def calculate_position_size (signal : Signal) (portfolio_value risk_per_trade : ℚ) : ℚ :=
  let risk_amount := portfolio_value * risk_per_trade
  let price_risk := |signal.entry_price - signal.stop_loss|
  if price_risk = 0 then 0
  else min (risk_amount / price_risk * signal.entry_price) (portfolio_value * 0.25)

end MomentumBot

/-! ## GridTradingBot (`src/bots/grid_trading_bot.py`)

Config: `grid_levels 10`, `grid_spacing 0.02`, `base_size 1000`,
`range_detection_period 50`. -/

namespace GridTradingBot

/-- The indicator mapping of `GridTradingBot.calculate_indicators`. -/
structure Ind where
  range_high : PF
  range_low : PF
  range_middle : PF
  price : ℚ
deriving DecidableEq

/-- Source `GridTradingBot.calculate_indicators`: 50-bar rolling range. -/
def calculate_indicators (data : List Bar) : Except String Ind :=
  match data with
  | [] => .error "single positional indexer is out-of-bounds"
  | b :: rest =>
    let latest := (b :: rest).getLast (by simp)
    let range_high := rollingLastMax 50 ((b :: rest).map Bar.high)
    let range_low := rollingLastMin 50 ((b :: rest).map Bar.low)
    .ok { range_high, range_low,
          range_middle := PF.div (PF.add range_high range_low) (num 2),
          price := latest.close }

/-- Source `GridTradingBot.get_risk_parameters`: stop at 2× grid spacing, target at
1× grid spacing. -/
def get_risk_parameters (entry_price : ℚ) (signal_type : SignalType) : ℚ × ℚ :=
  if signal_type = .buy then
    (entry_price * (1 - 0.02 * 2), entry_price * (1 + 0.02))
  else
    (entry_price * (1 + 0.02 * 2), entry_price * (1 - 0.02))

/-- The branch logic of `GridTradingBot.analyze` (lines 38–61): Buy in the
lower 30% of the range, Sell in the upper 30%, otherwise Hold.  A zero or
NaN range makes `position_in_range` ±inf or NaN, exactly as in numpy. -/
def decide_signal (symbol : String) (ind : Ind) (latest : Bar) : Signal :=
  let current_price := latest.close
  let range_size := PF.sub ind.range_high ind.range_low
  let position_in_range := PF.div (PF.sub (num current_price) ind.range_low) range_size
  if PF.lt position_in_range (num 0.3) then
    let rp := get_risk_parameters current_price .buy
    { signal_type := .buy, symbol, confidence := 0.70, entry_price := current_price,
      stop_loss := rp.1, take_profit := rp.2, position_size := 0,
      reason := "Price in lower 30% of range" }
  else if PF.gt position_in_range (num 0.7) then
    let rp := get_risk_parameters current_price .sell
    { signal_type := .sell, symbol, confidence := 0.70, entry_price := current_price,
      stop_loss := rp.1, take_profit := rp.2, position_size := 0,
      reason := "Price in upper 30% of range" }
  else
    { signal_type := .hold, symbol, confidence := 0, entry_price := current_price,
      stop_loss := 0, take_profit := 0, position_size := 0,
      reason := "Grid levels maintained" }

/-- Body of `GridTradingBot.analyze` inside the `try:` block. -/
def analyze_core (symbol : String) (data : List Bar) (_ctx : MarketCtx) :
    Except String Signal :=
  match calculate_indicators data with
  | .error e => .error e
  | .ok ind =>
    match lastE data with
    | .error e => .error e
    | .ok latest => .ok (decide_signal symbol ind latest)

/-- Source `GridTradingBot.analyze`: the bare `except:` returns a Hold signal with
reason `"Error"` (the exception text is discarded). -/
def analyze (symbol : String) (data : List Bar) (ctx : MarketCtx) : Signal :=
  match analyze_core symbol data ctx with
  | .ok s => s
  | .error _ =>
    { signal_type := .hold, symbol, confidence := 0, entry_price := 0,
      stop_loss := 0, take_profit := 0, position_size := 0, reason := "Error" }

/-- Source `GridTradingBot.validate_signal`: confidence floor 0.65. -/
def validate_signal (signal : Signal) (_ctx : MarketCtx) : Bool :=
  decide ((0.65 : ℚ) ≤ signal.confidence)

/-- Source `GridTradingBot.calculate_position_size`: fixed size per grid level,
capped at 10% of portfolio — independent of the per-share risk. -/
def calculate_position_size (_signal : Signal) (portfolio_value _risk_per_trade : ℚ) : ℚ :=
  min 1000 (portfolio_value * 0.10)

end GridTradingBot

/-! ## CryptoArbitrageBot (`src/bots/crypto_arbitrage_bot.py`)

Config: `min_spread 0.01`, `max_trade_size 50000`. -/

namespace CryptoArbitrageBot

/-- The indicator mapping of `CryptoArbitrageBot.calculate_indicators`. -/
structure Ind where
  spread : PF
  price : ℚ
deriving DecidableEq

/-- Source `CryptoArbitrageBot.calculate_indicators`: the simplified spread is the
last bar's high-low range over its close (`±inf`/NaN when the close is 0,
as in numpy). -/
def calculate_indicators (data : List Bar) : Except String Ind :=
  match data with
  | [] => .error "single positional indexer is out-of-bounds"
  | b :: rest =>
    let latest := (b :: rest).getLast (by simp)
    .ok { spread := PF.div (num (latest.high - latest.low)) (num latest.close),
          price := latest.close }

/-- Source `CryptoArbitrageBot.get_risk_parameters`: 0.2% stop, 1% target. -/
def get_risk_parameters (entry_price : ℚ) (signal_type : SignalType) : ℚ × ℚ :=
  if signal_type = .buy then
    (entry_price * (1 - 0.002), entry_price * (1 + 0.01))
  else
    (entry_price * (1 + 0.002), entry_price * (1 - 0.01))

/-- The branch logic of `CryptoArbitrageBot.analyze` (lines 31–49): Buy when
the spread exceeds 1%, otherwise Hold; no Sell branch exists. -/
def decide_signal (symbol : String) (ind : Ind) (latest : Bar) : Signal :=
  if PF.gt ind.spread (num 0.01) then
    let rp := get_risk_parameters latest.close .buy
    { signal_type := .buy, symbol, confidence := 0.85, entry_price := latest.close,
      stop_loss := rp.1, take_profit := rp.2, position_size := 0,
      reason := "Arbitrage opportunity detected" }
  else
    { signal_type := .hold, symbol, confidence := 0, entry_price := latest.close,
      stop_loss := 0, take_profit := 0, position_size := 0,
      reason := "No arbitrage opportunity" }

/-- Body of `CryptoArbitrageBot.analyze` inside the `try:` block. -/
def analyze_core (symbol : String) (data : List Bar) (_ctx : MarketCtx) :
    Except String Signal :=
  match calculate_indicators data with
  | .error e => .error e
  | .ok ind =>
    match lastE data with
    | .error e => .error e
    | .ok latest => .ok (decide_signal symbol ind latest)

/-- Source `CryptoArbitrageBot.analyze`: bare `except:` returning reason `"Error"`. -/
def analyze (symbol : String) (data : List Bar) (ctx : MarketCtx) : Signal :=
  match analyze_core symbol data ctx with
  | .ok s => s
  | .error _ =>
    { signal_type := .hold, symbol, confidence := 0, entry_price := 0,
      stop_loss := 0, take_profit := 0, position_size := 0, reason := "Error" }

/-- Source `CryptoArbitrageBot.validate_signal`: confidence floor 0.80. -/
def validate_signal (signal : Signal) (_ctx : MarketCtx) : Bool :=
  decide ((0.80 : ℚ) ≤ signal.confidence)

/-- Source `CryptoArbitrageBot.calculate_position_size`: 15% of portfolio capped at
the max trade size — independent of the per-share risk. -/
def calculate_position_size (_signal : Signal) (portfolio_value _risk_per_trade : ℚ) : ℚ :=
  min (portfolio_value * 0.15) 50000

end CryptoArbitrageBot

/-! ## FibonacciTrader (`src/bots/fibonacci_trader.py`)

Config: `lookback 50`, `fib_tolerance 0.005`,
`key_levels [0.236, 0.382, 0.5, 0.618, 0.786]`. -/

namespace FibonacciTrader

/-- The indicator mapping of `FibonacciTrader.calculate_indicators`.  The
`trend` string (`'uptrend'`/`'downtrend'`) is the boolean `trend_up`. -/
structure Ind where
  at_fib_level : Bool
  fib_level : Option ℚ
  trend_up : Bool
  fib_levels : List (ℚ × ℚ)
  price : ℚ
deriving DecidableEq

/-- The `for level, price in fib_levels.items()` loop with `break`: the
first key level whose price is within the relative tolerance of the current
price (dicts iterate in insertion order).  `abs(cur - p)/cur` is computed in
numpy semantics (`±inf`/NaN when `cur = 0`). -/
def findFibLevel (current_price : ℚ) : List (ℚ × ℚ) → Option ℚ
  | [] => none
  | (level, price) :: rest =>
    if PF.lt (PF.div (num |current_price - price|) (num current_price)) (num 0.005) then
      some level
    else findFibLevel current_price rest

/-- Source `FibonacciTrader.calculate_indicators`: retracement levels between the
50-bar trailing high and low, plus the price-vs-SMA20 trend. -/
def calculate_indicators (data : List Bar) : Except String Ind :=
  match data with
  | [] => .error "single positional indexer is out-of-bounds"
  | b :: rest =>
    let recent := (b :: rest).drop ((b :: rest).length - 50)
    let high := qmax (recent.map Bar.high)
    let low := qmin (recent.map Bar.low)
    let current_price := ((b :: rest).getLast (by simp)).close
    let diff := high - low
    let fib_levels := [(0.236 : ℚ), 0.382, 0.5, 0.618, 0.786].map
      (fun level => (level, high - diff * level))
    let found := findFibLevel current_price fib_levels
    let sma_20 := rollingLastMean 20 ((b :: rest).map Bar.close)
    .ok { at_fib_level := found.isSome, fib_level := found,
          trend_up := PF.gt (num current_price) sma_20,
          fib_levels, price := current_price }

/-- Source `FibonacciTrader.get_risk_parameters`: 2.5% stop distance, 7% target
distance. -/
def get_risk_parameters (entry_price : ℚ) (signal_type : SignalType) : ℚ × ℚ :=
  if signal_type = .buy then
    (entry_price - entry_price * 0.025, entry_price + entry_price * 0.07)
  else
    (entry_price + entry_price * 0.025, entry_price - entry_price * 0.07)

/-- The branch logic of `FibonacciTrader.analyze` (lines 31–77): signal only
at one of the mid-range levels 0.382/0.5/0.618, in the direction of the
trend. -/
def decide_signal (symbol : String) (ind : Ind) (latest : Bar) : Signal :=
  let in_key : Bool :=
    match ind.fib_level with
    | some l => decide (l = 0.382 ∨ l = 0.5 ∨ l = 0.618)
    | none => false
  if ind.at_fib_level && ind.trend_up && in_key then
    let rp := get_risk_parameters latest.close .buy
    { signal_type := .buy, symbol, confidence := 0.77, entry_price := latest.close,
      stop_loss := rp.1, take_profit := rp.2, position_size := 0,
      reason := "Fib retracement in uptrend" }
  else if ind.at_fib_level && !ind.trend_up && in_key then
    let rp := get_risk_parameters latest.close .sell
    { signal_type := .sell, symbol, confidence := 0.77, entry_price := latest.close,
      stop_loss := rp.1, take_profit := rp.2, position_size := 0,
      reason := "Fib retracement in downtrend" }
  else
    { signal_type := .hold, symbol, confidence := 0, entry_price := latest.close,
      stop_loss := 0, take_profit := 0, position_size := 0,
      reason := "No Fibonacci signal" }

/-- Body of `FibonacciTrader.analyze` inside the `try:` block. -/
def analyze_core (symbol : String) (data : List Bar) (_ctx : MarketCtx) :
    Except String Signal :=
  match calculate_indicators data with
  | .error e => .error e
  | .ok ind =>
    match lastE data with
    | .error e => .error e
    | .ok latest => .ok (decide_signal symbol ind latest)

/-- Source `FibonacciTrader.analyze`: `_create_error_signal` records the exception
text in the reason. -/
def analyze (symbol : String) (data : List Bar) (ctx : MarketCtx) : Signal :=
  match analyze_core symbol data ctx with
  | .ok s => s
  | .error e =>
    { signal_type := .hold, symbol, confidence := 0, entry_price := 0,
      stop_loss := 0, take_profit := 0, position_size := 0,
      reason := "Error: " ++ e }

/-- Source `FibonacciTrader.validate_signal`: strict confidence floor 0.70. -/
def validate_signal (signal : Signal) (_ctx : MarketCtx) : Bool :=
  decide ((0.70 : ℚ) < signal.confidence)

end FibonacciTrader

/-! ## NewsSentinelBot (`src/bots/news_sentinel_bot.py`)

Config: `sentiment_threshold 0.6`, `volume_spike_threshold 2.0`. -/

namespace NewsSentinelBot

/-- The indicator mapping of `NewsSentinelBot.calculate_indicators`. -/
structure Ind where
  volume_ratio : PF
  price_change : PF
  price : ℚ
deriving DecidableEq

/-- Source `NewsSentinelBot.calculate_indicators`: 20-bar volume ratio and 5-bar
price change. -/
def calculate_indicators (data : List Bar) : Except String Ind :=
  match data with
  | [] => .error "single positional indexer is out-of-bounds"
  | b :: rest =>
    let latest := (b :: rest).getLast (by simp)
    let avg_volume := rollingLastMean 20 ((b :: rest).map Bar.volume)
    .ok { volume_ratio :=
            if PF.gt avg_volume (num 0) then PF.div (num latest.volume) avg_volume
            else num 1,
          price_change := pctChangeLast 5 ((b :: rest).map Bar.close),
          price := latest.close }

/-- Source `NewsSentinelBot.get_risk_parameters`: 3% stop, 6% target. -/
def get_risk_parameters (entry_price : ℚ) (signal_type : SignalType) : ℚ × ℚ :=
  if signal_type = .buy then
    (entry_price * (1 - 0.03), entry_price * (1 + 0.06))
  else
    (entry_price * (1 + 0.03), entry_price * (1 - 0.06))

/-- The branch logic of `NewsSentinelBot.analyze` (lines 31–57): externally
supplied sentiment (via `market_data.get('news_sentiment', 0)`) combined
with a volume spike. -/
def decide_signal (symbol : String) (ind : Ind) (latest : Bar) (ctx : MarketCtx) : Signal :=
  let sentiment := ctx.news_sentiment.getD 0
  if decide ((0.6 : ℚ) < sentiment) && PF.gt ind.volume_ratio (num 2) then
    let rp := get_risk_parameters latest.close .buy
    { signal_type := .buy, symbol, confidence := 0.75, entry_price := latest.close,
      stop_loss := rp.1, take_profit := rp.2, position_size := 0,
      reason := "Positive news sentiment with volume" }
  else if decide (sentiment < (-0.6 : ℚ)) && PF.gt ind.volume_ratio (num 2) then
    let rp := get_risk_parameters latest.close .sell
    { signal_type := .sell, symbol, confidence := 0.75, entry_price := latest.close,
      stop_loss := rp.1, take_profit := rp.2, position_size := 0,
      reason := "Negative news sentiment with volume" }
  else
    { signal_type := .hold, symbol, confidence := 0, entry_price := latest.close,
      stop_loss := 0, take_profit := 0, position_size := 0,
      reason := "No news catalyst" }

/-- Body of `NewsSentinelBot.analyze` inside the `try:` block. -/
def analyze_core (symbol : String) (data : List Bar) (ctx : MarketCtx) :
    Except String Signal :=
  match calculate_indicators data with
  | .error e => .error e
  | .ok ind =>
    match lastE data with
    | .error e => .error e
    | .ok latest => .ok (decide_signal symbol ind latest ctx)

/-- Source `NewsSentinelBot.analyze`: bare `except:` returning reason `"Error"`. -/
def analyze (symbol : String) (data : List Bar) (ctx : MarketCtx) : Signal :=
  match analyze_core symbol data ctx with
  | .ok s => s
  | .error _ =>
    { signal_type := .hold, symbol, confidence := 0, entry_price := 0,
      stop_loss := 0, take_profit := 0, position_size := 0, reason := "Error" }

/-- Source `NewsSentinelBot.validate_signal`: confidence floor 0.70. -/
def validate_signal (signal : Signal) (_ctx : MarketCtx) : Bool :=
  decide ((0.70 : ℚ) ≤ signal.confidence)

/-- Source `NewsSentinelBot.calculate_position_size`: risk budget over per-share
risk, capped at 20% of portfolio; 0 when per-share risk is 0. -/
def calculate_position_size (signal : Signal) (portfolio_value risk_per_trade : ℚ) : ℚ :=
  let risk_amount := portfolio_value * risk_per_trade
  let price_risk := |signal.entry_price - signal.stop_loss|
  if price_risk = 0 then 0
  else min (risk_amount / price_risk * signal.entry_price) (portfolio_value * 0.20)

end NewsSentinelBot

/-! ## ScalpingBot (`src/bots/scalping_bot.py`)

Config: `ema_fast 5`, `ema_slow 15`, `min_spread 0.001`,
`target_profit 0.005`. -/

namespace ScalpingBot

/-- The indicator mapping of `ScalpingBot.calculate_indicators`. -/
structure Ind where
  ema_fast : ℚ
  ema_slow : ℚ
  momentum : PF
  price : ℚ
deriving DecidableEq

/-- Source `ScalpingBot.calculate_indicators`: EMA crossover and 5-bar momentum. -/
def calculate_indicators (data : List Bar) : Except String Ind :=
  match data with
  | [] => .error "single positional indexer is out-of-bounds"
  | b :: rest =>
    let closes := (b :: rest).map Bar.close
    .ok { ema_fast := ewmLast 5 closes, ema_slow := ewmLast 15 closes,
          momentum := pctChangeLast 5 closes,
          price := ((b :: rest).getLast (by simp)).close }

/-- Source `ScalpingBot.get_risk_parameters`: 0.5% stop, 1% target. -/
def get_risk_parameters (entry_price : ℚ) (signal_type : SignalType) : ℚ × ℚ :=
  if signal_type = .buy then
    (entry_price * (1 - 0.005), entry_price * (1 + 0.01))
  else
    (entry_price * (1 + 0.005), entry_price * (1 - 0.01))

/-- The branch logic of `ScalpingBot.analyze` (lines 32–52). -/
def decide_signal (symbol : String) (ind : Ind) (latest : Bar) : Signal :=
  if decide (ind.ema_slow < ind.ema_fast) && PF.gt ind.momentum (num 0) then
    let rp := get_risk_parameters latest.close .buy
    { signal_type := .buy, symbol, confidence := 0.70, entry_price := latest.close,
      stop_loss := rp.1, take_profit := rp.2, position_size := 0,
      reason := "Fast EMA crossed above slow EMA with positive momentum" }
  else if decide (ind.ema_fast < ind.ema_slow) && PF.lt ind.momentum (num 0) then
    let rp := get_risk_parameters latest.close .sell
    { signal_type := .sell, symbol, confidence := 0.70, entry_price := latest.close,
      stop_loss := rp.1, take_profit := rp.2, position_size := 0,
      reason := "Fast EMA crossed below slow EMA with negative momentum" }
  else
    { signal_type := .hold, symbol, confidence := 0, entry_price := latest.close,
      stop_loss := 0, take_profit := 0, position_size := 0,
      reason := "No scalp setup" }

/-- Body of `ScalpingBot.analyze` inside the `try:` block. -/
def analyze_core (symbol : String) (data : List Bar) (_ctx : MarketCtx) :
    Except String Signal :=
  match calculate_indicators data with
  | .error e => .error e
  | .ok ind =>
    match lastE data with
    | .error e => .error e
    | .ok latest => .ok (decide_signal symbol ind latest)

/-- Source `ScalpingBot.analyze`: bare `except:` returning reason `"Error"`. -/
def analyze (symbol : String) (data : List Bar) (ctx : MarketCtx) : Signal :=
  match analyze_core symbol data ctx with
  | .ok s => s
  | .error _ =>
    { signal_type := .hold, symbol, confidence := 0, entry_price := 0,
      stop_loss := 0, take_profit := 0, position_size := 0, reason := "Error" }

/-- Source `ScalpingBot.validate_signal`: confidence floor 0.65. -/
def validate_signal (signal : Signal) (_ctx : MarketCtx) : Bool :=
  decide ((0.65 : ℚ) ≤ signal.confidence)

/-- Source `ScalpingBot.calculate_position_size`: 10% of portfolio capped at
10000 — independent of the per-share risk. -/
def calculate_position_size (_signal : Signal) (portfolio_value _risk_per_trade : ℚ) : ℚ :=
  min (portfolio_value * 0.10) 10000

end ScalpingBot

/-! ## PatternRecognitionBot (`src/bots/pattern_recognition_bot.py`)

A stub bot: its `analyze` always returns a Hold signal. -/

namespace PatternRecognitionBot

/-- The indicator mapping of `PatternRecognitionBot.calculate_indicators`. -/
structure Ind where
  price : ℚ
deriving DecidableEq

/-- Source `PatternRecognitionBot.calculate_indicators`. -/
def calculate_indicators (data : List Bar) : Except String Ind :=
  match data with
  | [] => .error "single positional indexer is out-of-bounds"
  | b :: rest => .ok { price := ((b :: rest).getLast (by simp)).close }

/-- Body of `PatternRecognitionBot.analyze` inside the `try:` block: always
Hold at the last close. -/
def analyze_core (symbol : String) (data : List Bar) (_ctx : MarketCtx) :
    Except String Signal :=
  match calculate_indicators data with
  | .error e => .error e
  | .ok ind =>
    .ok { signal_type := .hold, symbol, confidence := 0, entry_price := ind.price,
          stop_loss := 0, take_profit := 0, position_size := 0,
          reason := "Signal logic here" }

/-- Source `PatternRecognitionBot.analyze`: the bare `except:` calls
`_create_error_signal(symbol, "Error")`, so the reason is
`"Error: Error"` (the exception text is discarded). -/
def analyze (symbol : String) (data : List Bar) (ctx : MarketCtx) : Signal :=
  match analyze_core symbol data ctx with
  | .ok s => s
  | .error _ =>
    { signal_type := .hold, symbol, confidence := 0, entry_price := 0,
      stop_loss := 0, take_profit := 0, position_size := 0,
      reason := "Error: Error" }

/-- Source `PatternRecognitionBot.validate_signal`: strict confidence floor 0.7. -/
def validate_signal (signal : Signal) (_ctx : MarketCtx) : Bool :=
  decide ((0.7 : ℚ) < signal.confidence)

end PatternRecognitionBot

/-! ## MeanReversionBot (`src/bots/mean_reversion_bot.py`)

Config: `bb_period 20`, `bb_std 2.0`, `rsi_period 14`, `rsi_oversold 30`,
`rsi_overbought 70`, `min_confidence 0.70`. -/

namespace MeanReversionBot

/-- The indicator mapping of `MeanReversionBot.calculate_indicators`.  The
source stores `bb_upper = sma + 2·std` and `bb_lower = sma - 2·std`; since
`std` is an irrational square root, the embedding carries `sma` and the
variance `var = std²` and encodes the band comparisons exactly
(`belowLowerBand`/`aboveUpperBand`). -/
structure Ind where
  sma : PF
  var : PF
  rsi : PF
  price : ℚ
deriving DecidableEq

/-- Source `MeanReversionBot.calculate_indicators`. -/
def calculate_indicators (data : List Bar) : Except String Ind :=
  match data with
  | [] => .error "single positional indexer is out-of-bounds"
  | b :: rest =>
    let closes := (b :: rest).map Bar.close
    .ok { sma := rollingLastMean 20 closes, var := rollingLastVar 20 closes,
          rsi := rsiLast 14 closes,
          price := ((b :: rest).getLast (by simp)).close }

/-- Exact test for `close < sma - 2·std` (price strictly below the lower
Bollinger band): for a nonnegative variance `v = std²` this is equivalent to
`sma - close > 0 ∧ (sma - close)² > 2² · v`; false when the rolling window
is not yet full (NaN), as IEEE comparison dictates. -/
def belowLowerBand (close : ℚ) (sma var : PF) : Bool :=
  match sma, var with
  | num m, num v => decide (0 < m - close) && decide ((2 : ℚ) ^ 2 * v < (m - close) ^ 2)
  | _, _ => false

/-- Exact test for `close > sma + 2·std` (price strictly above the upper
Bollinger band). -/
def aboveUpperBand (close : ℚ) (sma var : PF) : Bool :=
  match sma, var with
  | num m, num v => decide (0 < close - m) && decide ((2 : ℚ) ^ 2 * v < (close - m) ^ 2)
  | _, _ => false

/-- Source `MeanReversionBot.get_risk_parameters`: 3% stop, 4.5% target. -/
def get_risk_parameters (entry_price : ℚ) (signal_type : SignalType) : ℚ × ℚ :=
  if signal_type = .buy then
    (entry_price * (1 - 0.03), entry_price * (1 + 0.045))
  else
    (entry_price * (1 + 0.03), entry_price * (1 - 0.045))

/-- The branch logic of `MeanReversionBot.analyze` (lines 38–75): oversold
buy below the lower band, overbought sell above the upper band. -/
def decide_signal (symbol : String) (ind : Ind) (latest : Bar) : Signal :=
  if belowLowerBand latest.close ind.sma ind.var && PF.lt ind.rsi (num 30) then
    let rp := get_risk_parameters latest.close .buy
    { signal_type := .buy, symbol, confidence := 0.80, entry_price := latest.close,
      stop_loss := rp.1, take_profit := rp.2, position_size := 0,
      reason := "Oversold below BB lower band" }
  else if aboveUpperBand latest.close ind.sma ind.var && PF.gt ind.rsi (num 70) then
    let rp := get_risk_parameters latest.close .sell
    { signal_type := .sell, symbol, confidence := 0.80, entry_price := latest.close,
      stop_loss := rp.1, take_profit := rp.2, position_size := 0,
      reason := "Overbought above BB upper band" }
  else
    { signal_type := .hold, symbol, confidence := 0, entry_price := latest.close,
      stop_loss := 0, take_profit := 0, position_size := 0,
      reason := "No mean reversion signal" }

/-- Body of `MeanReversionBot.analyze` inside the `try:` block. -/
def analyze_core (symbol : String) (data : List Bar) (_ctx : MarketCtx) :
    Except String Signal :=
  match calculate_indicators data with
  | .error e => .error e
  | .ok ind =>
    match lastE data with
    | .error e => .error e
    | .ok latest => .ok (decide_signal symbol ind latest)

/-- Source `MeanReversionBot.analyze`: `_create_hold_signal` with
`f"Error: {e}"`. -/
def analyze (symbol : String) (data : List Bar) (ctx : MarketCtx) : Signal :=
  match analyze_core symbol data ctx with
  | .ok s => s
  | .error e =>
    { signal_type := .hold, symbol, confidence := 0, entry_price := 0,
      stop_loss := 0, take_profit := 0, position_size := 0,
      reason := "Error: " ++ e }

/-- Source `MeanReversionBot.validate_signal`: confidence floor 0.70. -/
def validate_signal (signal : Signal) (_ctx : MarketCtx) : Bool :=
  decide ((0.70 : ℚ) ≤ signal.confidence)

/-- Source `MeanReversionBot.calculate_position_size`: risk budget over per-share
risk, capped at 20% of portfolio; 0 when per-share risk is 0. -/
def calculate_position_size (signal : Signal) (portfolio_value risk_per_trade : ℚ) : ℚ :=
  let risk_amount := portfolio_value * risk_per_trade
  let price_risk := |signal.entry_price - signal.stop_loss|
  if price_risk = 0 then 0
  else min (risk_amount / price_risk * signal.entry_price) (portfolio_value * 0.20)

end MeanReversionBot

/-! ## The strategy contract and the registry of embedded bots -/

/-- The parts of the `BaseBot` strategy contract exercised by the engine:
the `try:`-block body (`analyzeCore`), the caught `analyze`, and the
acceptance gate `validate_signal`.  (`calculate_position_size` is bound
per-bot below; `FibonacciTrader` and `PatternRecognitionBot` inherit theirs
from `base_bot.py`, which is not part of the sources.) -/
structure Strategy where
  name : String
  analyzeCore : String → List Bar → MarketCtx → Except String Signal
  analyze : String → List Bar → MarketCtx → Signal
  validate : Signal → MarketCtx → Bool

/-- Source `MomentumBot()` as registered in the bot table. -/
def momentumBot : Strategy :=
  { name := "Momentum Bot", analyzeCore := MomentumBot.analyze_core,
    analyze := MomentumBot.analyze, validate := MomentumBot.validate_signal }

/-- Source `GridTradingBot()`. -/
def gridTradingBot : Strategy :=
  { name := "Grid Trading Bot", analyzeCore := GridTradingBot.analyze_core,
    analyze := GridTradingBot.analyze, validate := GridTradingBot.validate_signal }

/-- Source `CryptoArbitrageBot()`. -/
def cryptoArbitrageBot : Strategy :=
  { name := "Crypto Arbitrage Bot", analyzeCore := CryptoArbitrageBot.analyze_core,
    analyze := CryptoArbitrageBot.analyze, validate := CryptoArbitrageBot.validate_signal }

/-- Source `FibonacciTrader()`. -/
def fibonacciTrader : Strategy :=
  { name := "Fibonacci Trader", analyzeCore := FibonacciTrader.analyze_core,
    analyze := FibonacciTrader.analyze, validate := FibonacciTrader.validate_signal }

/-- Source `NewsSentinelBot()`. -/
def newsSentinelBot : Strategy :=
  { name := "News Sentinel Bot", analyzeCore := NewsSentinelBot.analyze_core,
    analyze := NewsSentinelBot.analyze, validate := NewsSentinelBot.validate_signal }

/-- Source `ScalpingBot()`. -/
def scalpingBot : Strategy :=
  { name := "Scalping Bot", analyzeCore := ScalpingBot.analyze_core,
    analyze := ScalpingBot.analyze, validate := ScalpingBot.validate_signal }

/-- Source `PatternRecognitionBot()`. -/
def patternRecognitionBot : Strategy :=
  { name := "PatternRecognitionBot", analyzeCore := PatternRecognitionBot.analyze_core,
    analyze := PatternRecognitionBot.analyze,
    validate := PatternRecognitionBot.validate_signal }

/-- Source `MeanReversionBot()`. -/
def meanReversionBot : Strategy :=
  { name := "Mean Reversion Bot", analyzeCore := MeanReversionBot.analyze_core,
    analyze := MeanReversionBot.analyze, validate := MeanReversionBot.validate_signal }

/-- The strategies of `src/bots/` (the analogue of the `BOTS` table). -/
def allBots : List Strategy :=
  [momentumBot, gridTradingBot, cryptoArbitrageBot, fibonacciTrader,
   newsSentinelBot, scalpingBot, patternRecognitionBot, meanReversionBot]

/-- The Signal invariant of spec §3/§8: confidence in `[0,1]`; Hold signals
are degenerate; Buy/Sell stops and targets are on the correct side of the
entry. -/
def SignalInvariant (s : Signal) : Prop :=
  0 ≤ s.confidence ∧ s.confidence ≤ 1 ∧
  (s.signal_type = .hold → s.confidence = 0 ∧ s.stop_loss = 0 ∧ s.take_profit = 0) ∧
  (s.signal_type = .buy → s.stop_loss < s.entry_price ∧ s.entry_price < s.take_profit) ∧
  (s.signal_type = .sell → s.take_profit < s.entry_price ∧ s.entry_price < s.stop_loss)

/-! ## The backtest engine (`src/app.py`, `run_backtest`, lines 314–368) -/

/-- A trade booked by `run_backtest` (the `entry_date` timestamp carries no
decision content and is omitted). -/
structure Trade where
  trade_type : SignalType
  entry_price : ℚ
  exit_price : ℚ
  pnl_percent : PF
deriving DecidableEq

/-- One equity-compounding step:
`equity_curve[-1] * (1 + pnl/100)` (line 350). -/
def next_equity (e : PF) (t : Trade) : PF :=
  PF.mul e (PF.add (num 1) (PF.div t.pnl_percent (num 100)))

/-- The equity curve generated from a starting value by compounding one
trade at a time — the recurrence `e₀ = start`,
`e_{j+1} = e_j · (1 + pnl_j/100)`. -/
def equityAux (e : PF) : List Trade → List PF
  | [] => [e]
  | t :: ts => e :: equityAux (next_equity e t) ts

/-- The equity curve a trade log determines, seeded with the starting
capital 10000 (line 330). -/
def equity_curve (ts : List Trade) : List PF := equityAux (num 10000) ts

/-- The mutable loop state of `run_backtest`: the trade log, the equity
curve, and how many exit prices have been drawn from the global RNG. -/
structure BTState where
  trades : List Trade
  equity : List PF
  draws : ℕ
deriving DecidableEq

/-- Line 333–334: `window_data = data.iloc[:i]`,
`signal = bot.analyze(symbol, window_data, {})` — the step-`i` signal reads
only the prefix of the first `i` bars. -/
def backtest_step_signal (bot : Strategy) (sym : String) (data : List Bar)
    (ctx : MarketCtx) (i : ℕ) : Signal :=
  bot.analyze sym (data.take i) ctx

/-- One iteration of the `for i in range(20, len(data))` loop (lines
332–350).  The process-global `random.uniform(0.98, 1.05)` stream is
modelled by `rng`, indexed by how many draws have been consumed: the `k`-th
trade's exit price is `entry * rng k`.  `pnl = (exit - entry)/entry * 100`
is computed in numpy float semantics (`PF`). -/
def bt_step (bot : Strategy) (sym : String) (data : List Bar) (ctx : MarketCtx)
    (rng : ℕ → ℚ) (st : BTState) (i : ℕ) : BTState :=
  let signal := backtest_step_signal bot sym data ctx i
  if signal.signal_type = .hold then st
  else
    let entry := signal.entry_price
    let exit_price := entry * rng st.draws
    let pnl := PF.mul (PF.div (num (exit_price - entry)) (num entry)) (num 100)
    let t : Trade := { trade_type := signal.signal_type, entry_price := entry,
                       exit_price, pnl_percent := pnl }
    { trades := st.trades ++ [t],
      equity := st.equity ++ [next_equity (st.equity.getLastD (num 10000)) t],
      draws := st.draws + 1 }

/-- Source `run_backtest` (the simulation loop of lines 329–350): the trade log
and equity curve for one (bot, symbol, series) triple, as a function of the
global RNG stream. -/
def run_backtest (bot : Strategy) (sym : String) (data : List Bar)
    (ctx : MarketCtx) (rng : ℕ → ℚ) : List Trade × List PF :=
  let st := (List.range' 20 (data.length - 20)).foldl
    (bt_step bot sym data ctx rng) ⟨[], [num 10000], 0⟩
  (st.trades, st.equity)

/-! ## Concrete inputs used by the witnesses and counterexamples -/

/-- An empty `market_data` mapping. -/
def emptyCtx : MarketCtx := { news_sentiment := none }

/-- A flat 100-price bar. -/
def flatBar : Bar := { open_ := 100, high := 100, low := 100, close := 100, volume := 1000 }

/-- A bar with a 2% high-low spread at close 100. -/
def spreadBar : Bar := { open_ := 100, high := 102, low := 100, close := 100, volume := 1000 }

/-- A 21-bar series whose 20th bar carries a 2% spread: the arbitrage bot
fires a Buy at the single backtest step `i = 20`. -/
def c3_series : List Bar := List.replicate 19 flatBar ++ [spreadBar, flatBar]

/-- A 2-bar series sitting exactly at the 0.5 Fibonacci retracement of its
own 2-bar high/low range (high 110, low 90, close 100), with the 20-bar SMA
still NaN. -/
def fib_short_series : List Bar :=
  [{ open_ := 100, high := 110, low := 90, close := 100, volume := 1000 },
   { open_ := 100, high := 100, low := 95, close := 100, volume := 1000 }]

/-- A non-Hold signal whose entry price equals its stop loss (zero per-share
risk). -/
def zero_risk_signal : Signal :=
  { signal_type := .buy, symbol := "X", confidence := 0.70, entry_price := 100,
    stop_loss := 100, take_profit := 102, position_size := 0, reason := "test" }

/-- The `calculate_position_size` implementations present in `src/bots/`
(the Fibonacci and pattern bots inherit theirs from `base_bot.py`, which is
not among the sources). -/
def position_sizers : List (Signal → ℚ → ℚ → ℚ) :=
  [MomentumBot.calculate_position_size, GridTradingBot.calculate_position_size,
   CryptoArbitrageBot.calculate_position_size, NewsSentinelBot.calculate_position_size,
   ScalpingBot.calculate_position_size, MeanReversionBot.calculate_position_size]

/-- The close of the strictly increasing synthetic series: `100 · 1.005ⁿ`. -/
def geomClose (n : ℕ) : ℚ := 100 * (1.005 : ℚ) ^ n

/-- A bar of the synthetic close-price series: all four prices equal the
synthetic close, volume constant. -/
def geomBar (n : ℕ) : Bar :=
  { open_ := geomClose n, high := geomClose n, low := geomClose n,
    close := geomClose n, volume := 1000000 }

/-- The 100-bar strictly monotonically increasing close-price series of
spec §8. -/
def geomSeries : List Bar := (List.range 100).map geomBar

/-- The evaluation windows (prefix lengths 0–100 of the synthetic series)
at which the momentum bot emits a Buy. -/
def momentum_geom_buy_windows : List ℕ :=
  (List.range 101).filter
    (fun i => decide ((MomentumBot.analyze "GEOM" (geomSeries.take i) emptyCtx).signal_type = .buy))

/-- Two series agreeing on their first two bars and differing afterwards
(no-look-ahead witness). -/
def c6_series_a : List Bar := [flatBar, flatBar, flatBar]

/-- See `c6_series_a`; differs from it only at index 2. -/
def c6_series_b : List Bar := [flatBar, flatBar, spreadBar]

/-! ## Theorems -/

open MomentumBot in
/-- Every output of `MomentumBot.analyze` is either a degenerate Hold signal
or a Buy/Sell at the last close with confidence 0.75 and the bot's fixed
stop/target percentages. -/
theorem momentum_analyze_shape (sym : String) (data : List Bar) (ctx : MarketCtx) :
    SigShape data 0.75 (fun e => e * (1 - 0.025)) (fun e => e * (1 + 0.05))
      (fun e => e * (1 + 0.025)) (fun e => e * (1 - 0.05))
      (analyze sym data ctx) := by
  match data with
  | [] =>
    left
    simp [analyze, analyze_core, calculate_indicators, create_hold_signal]
  | b :: rest =>
    have hlast : (b :: rest).getLast? = some ((b :: rest).getLast (by simp)) := by
      simp [List.getLast?_eq_getLast]
    simp only [SigShape, analyze, analyze_core, calculate_indicators, lastE, decide_signal]
    split
    all_goals
      split
      · right
        exact ⟨(b :: rest).getLast (by simp), hlast, by simp [get_risk_parameters]⟩
      · split
        · right
          exact ⟨(b :: rest).getLast (by simp), hlast, by simp [get_risk_parameters]⟩
        · left
          simp [create_hold_signal]

open GridTradingBot in
/-- Shape of every `GridTradingBot.analyze` output. -/
theorem grid_analyze_shape (sym : String) (data : List Bar) (ctx : MarketCtx) :
    SigShape data 0.70 (fun e => e * (1 - 0.02 * 2)) (fun e => e * (1 + 0.02))
      (fun e => e * (1 + 0.02 * 2)) (fun e => e * (1 - 0.02))
      (analyze sym data ctx) := by
  match data with
  | [] =>
    left
    simp [analyze, analyze_core, calculate_indicators]
  | b :: rest =>
    have hlast : (b :: rest).getLast? = some ((b :: rest).getLast (by simp)) := by
      simp [List.getLast?_eq_getLast]
    simp only [SigShape, analyze, analyze_core, calculate_indicators, lastE, decide_signal]
    split
    · right
      exact ⟨(b :: rest).getLast (by simp), hlast, by simp [get_risk_parameters]⟩
    · split
      · right
        exact ⟨(b :: rest).getLast (by simp), hlast, by simp [get_risk_parameters]⟩
      · left
        simp

open CryptoArbitrageBot in
/-- Shape of every `CryptoArbitrageBot.analyze` output. -/
theorem arbitrage_analyze_shape (sym : String) (data : List Bar) (ctx : MarketCtx) :
    SigShape data 0.85 (fun e => e * (1 - 0.002)) (fun e => e * (1 + 0.01))
      (fun e => e * (1 + 0.002)) (fun e => e * (1 - 0.01))
      (analyze sym data ctx) := by
  match data with
  | [] =>
    left
    simp [analyze, analyze_core, calculate_indicators]
  | b :: rest =>
    have hlast : (b :: rest).getLast? = some ((b :: rest).getLast (by simp)) := by
      simp [List.getLast?_eq_getLast]
    simp only [SigShape, analyze, analyze_core, calculate_indicators, lastE, decide_signal]
    split
    · right
      exact ⟨(b :: rest).getLast (by simp), hlast, by simp [get_risk_parameters]⟩
    · left
      simp

open CryptoArbitrageBot in
/-- The function `CryptoArbitrageBot.analyze` has no Sell branch: its output is Buy or
Hold for every input. -/
theorem arbitrage_never_sell (sym : String) (data : List Bar) (ctx : MarketCtx) :
    (analyze sym data ctx).signal_type ≠ .sell := by
  match data with
  | [] => simp [analyze, analyze_core, calculate_indicators]
  | b :: rest =>
    simp only [analyze, analyze_core, calculate_indicators, lastE, decide_signal]
    split <;> simp

open FibonacciTrader in
/-- Shape of every `FibonacciTrader.analyze` output. -/
theorem fibonacci_analyze_shape (sym : String) (data : List Bar) (ctx : MarketCtx) :
    SigShape data 0.77 (fun e => e - e * 0.025) (fun e => e + e * 0.07)
      (fun e => e + e * 0.025) (fun e => e - e * 0.07)
      (analyze sym data ctx) := by
  match data with
  | [] =>
    left
    simp [analyze, analyze_core, calculate_indicators]
  | b :: rest =>
    have hlast : (b :: rest).getLast? = some ((b :: rest).getLast (by simp)) := by
      simp [List.getLast?_eq_getLast]
    simp only [SigShape, analyze, analyze_core, calculate_indicators, lastE, decide_signal]
    split
    · right
      exact ⟨(b :: rest).getLast (by simp), hlast, by simp [get_risk_parameters]⟩
    · split
      · right
        exact ⟨(b :: rest).getLast (by simp), hlast, by simp [get_risk_parameters]⟩
      · left
        simp

open NewsSentinelBot in
/-- Shape of every `NewsSentinelBot.analyze` output. -/
theorem news_analyze_shape (sym : String) (data : List Bar) (ctx : MarketCtx) :
    SigShape data 0.75 (fun e => e * (1 - 0.03)) (fun e => e * (1 + 0.06))
      (fun e => e * (1 + 0.03)) (fun e => e * (1 - 0.06))
      (analyze sym data ctx) := by
  match data with
  | [] =>
    left
    simp [analyze, analyze_core, calculate_indicators]
  | b :: rest =>
    have hlast : (b :: rest).getLast? = some ((b :: rest).getLast (by simp)) := by
      simp [List.getLast?_eq_getLast]
    simp only [SigShape, analyze, analyze_core, calculate_indicators, lastE, decide_signal]
    split
    all_goals
      split
      · right
        exact ⟨(b :: rest).getLast (by simp), hlast, by simp [get_risk_parameters]⟩
      · split
        · right
          exact ⟨(b :: rest).getLast (by simp), hlast, by simp [get_risk_parameters]⟩
        · left
          simp

open ScalpingBot in
/-- Shape of every `ScalpingBot.analyze` output. -/
theorem scalping_analyze_shape (sym : String) (data : List Bar) (ctx : MarketCtx) :
    SigShape data 0.70 (fun e => e * (1 - 0.005)) (fun e => e * (1 + 0.01))
      (fun e => e * (1 + 0.005)) (fun e => e * (1 - 0.01))
      (analyze sym data ctx) := by
  match data with
  | [] =>
    left
    simp [analyze, analyze_core, calculate_indicators]
  | b :: rest =>
    have hlast : (b :: rest).getLast? = some ((b :: rest).getLast (by simp)) := by
      simp [List.getLast?_eq_getLast]
    simp only [SigShape, analyze, analyze_core, calculate_indicators, lastE, decide_signal]
    split
    · right
      exact ⟨(b :: rest).getLast (by simp), hlast, by simp [get_risk_parameters]⟩
    · split
      · right
        exact ⟨(b :: rest).getLast (by simp), hlast, by simp [get_risk_parameters]⟩
      · left
        simp

open PatternRecognitionBot in
/-- Shape of every `PatternRecognitionBot.analyze` output (always Hold). -/
theorem pattern_analyze_shape (sym : String) (data : List Bar) (ctx : MarketCtx) :
    SigShape data 0 (fun e => e) (fun e => e) (fun e => e) (fun e => e)
      (analyze sym data ctx) := by
  match data with
  | [] =>
    left
    simp [analyze, analyze_core, calculate_indicators]
  | b :: rest =>
    left
    simp [analyze, analyze_core, calculate_indicators]

open MeanReversionBot in
/-- Shape of every `MeanReversionBot.analyze` output. -/
theorem meanrev_analyze_shape (sym : String) (data : List Bar) (ctx : MarketCtx) :
    SigShape data 0.80 (fun e => e * (1 - 0.03)) (fun e => e * (1 + 0.045))
      (fun e => e * (1 + 0.03)) (fun e => e * (1 - 0.045))
      (analyze sym data ctx) := by
  match data with
  | [] =>
    left
    simp [analyze, analyze_core, calculate_indicators]
  | b :: rest =>
    have hlast : (b :: rest).getLast? = some ((b :: rest).getLast (by simp)) := by
      simp [List.getLast?_eq_getLast]
    simp only [SigShape, analyze, analyze_core, calculate_indicators, lastE, decide_signal]
    split
    · right
      exact ⟨(b :: rest).getLast (by simp), hlast, by simp [get_risk_parameters]⟩
    · split
      · right
        exact ⟨(b :: rest).getLast (by simp), hlast, by simp [get_risk_parameters]⟩
      · left
        simp

theorem mem_of_getLast?_eq {α : Type _} {l : List α} {a : α}
    (h : l.getLast? = some a) : a ∈ l := by
  cases l with
  | nil => simp at h
  | cons x xs =>
    rw [List.getLast?_eq_getLast (x :: xs) (by simp)] at h
    obtain rfl : (x :: xs).getLast (by simp) = a := by simpa using h
    exact List.getLast_mem _

/-- A signal of shape `SigShape` satisfies the Signal invariant, provided
closes are positive and the stop/target functions bracket the entry. -/
theorem siginv_of_shape {data : List Bar} {conf : ℚ} {stopB tpB stopS tpS : ℚ → ℚ}
    {s : Signal} (h : SigShape data conf stopB tpB stopS tpS s)
    (hpos : ∀ b ∈ data, 0 < b.close)
    (hc0 : 0 ≤ conf) (hc1 : conf ≤ 1)
    (hB : ∀ e : ℚ, 0 < e → stopB e < e ∧ e < tpB e)
    (hS : ∀ e : ℚ, 0 < e → tpS e < e ∧ e < stopS e) :
    SignalInvariant s := by
  rcases h with ⟨ht, hcf, hsl, htp⟩ | ⟨b, hb, hentry, hcf, hbuy | hsell⟩
  · refine ⟨by rw [hcf], by rw [hcf]; norm_num, fun _ => ⟨hcf, hsl, htp⟩, ?_, ?_⟩
    · intro hbuy; rw [ht] at hbuy; cases hbuy
    · intro hsell; rw [ht] at hsell; cases hsell
  · have he : 0 < b.close := hpos b (mem_of_getLast?_eq hb)
    obtain ⟨ht, hsl, htp⟩ := hbuy
    refine ⟨by rw [hcf]; exact hc0, by rw [hcf]; exact hc1, ?_, ?_, ?_⟩
    · intro hh; rw [ht] at hh; cases hh
    · intro _
      rw [hsl, htp, hentry]
      exact (hB b.close he)
    · intro hh; rw [ht] at hh; cases hh
  · have he : 0 < b.close := hpos b (mem_of_getLast?_eq hb)
    obtain ⟨ht, hsl, htp⟩ := hsell
    refine ⟨by rw [hcf]; exact hc0, by rw [hcf]; exact hc1, ?_, ?_, ?_⟩
    · intro hh; rw [ht] at hh; cases hh
    · intro hh; rw [ht] at hh; cases hh
    · intro _
      rw [hsl, htp, hentry]
      exact (hS b.close he)

/-- The stub `PatternRecognitionBot.analyze` always returns a degenerate Hold. -/
theorem pattern_always_hold (sym : String) (data : List Bar) (ctx : MarketCtx) :
    (PatternRecognitionBot.analyze sym data ctx).signal_type = .hold ∧
    (PatternRecognitionBot.analyze sym data ctx).confidence = 0 ∧
    (PatternRecognitionBot.analyze sym data ctx).stop_loss = 0 ∧
    (PatternRecognitionBot.analyze sym data ctx).take_profit = 0 := by
  cases data with
  | nil =>
    simp [PatternRecognitionBot.analyze, PatternRecognitionBot.analyze_core,
      PatternRecognitionBot.calculate_indicators]
  | cons b rest =>
    simp [PatternRecognitionBot.analyze, PatternRecognitionBot.analyze_core,
      PatternRecognitionBot.calculate_indicators]

/-- A non-Hold signal of shape `SigShape` carries the bot's fixed
confidence constant. -/
theorem conf_of_shape {data : List Bar} {conf : ℚ} {stopB tpB stopS tpS : ℚ → ℚ}
    {s : Signal} (h : SigShape data conf stopB tpB stopS tpS s)
    (hne : s.signal_type ≠ .hold) : s.confidence = conf := by
  rcases h with ⟨ht, _⟩ | ⟨b, _, _, hcf, _⟩
  · exact absurd ht hne
  · exact hcf

/-- C2: every Signal generated by any strategy's `analyze` on a series with
positive closes satisfies the Signal invariant: confidence in `[0,1]`, Hold
signals degenerate, and Buy/Sell stops/targets strictly bracketing the
entry price. -/
theorem c2_signal_invariant :
    ∀ bot ∈ allBots, ∀ (sym : String) (data : List Bar) (ctx : MarketCtx),
      (∀ b ∈ data, 0 < b.close) → SignalInvariant (bot.analyze sym data ctx) := by
  intro bot hbot sym data ctx hpos
  simp only [allBots, List.mem_cons, List.mem_singleton] at hbot
  rcases hbot with rfl | rfl | rfl | rfl | rfl | rfl | rfl | rfl | h
  · exact siginv_of_shape (momentum_analyze_shape sym data ctx) hpos
      (by norm_num) (by norm_num)
      (fun e he => by constructor <;> nlinarith)
      (fun e he => by constructor <;> nlinarith)
  · exact siginv_of_shape (grid_analyze_shape sym data ctx) hpos
      (by norm_num) (by norm_num)
      (fun e he => by constructor <;> nlinarith)
      (fun e he => by constructor <;> nlinarith)
  · exact siginv_of_shape (arbitrage_analyze_shape sym data ctx) hpos
      (by norm_num) (by norm_num)
      (fun e he => by constructor <;> nlinarith)
      (fun e he => by constructor <;> nlinarith)
  · exact siginv_of_shape (fibonacci_analyze_shape sym data ctx) hpos
      (by norm_num) (by norm_num)
      (fun e he => by constructor <;> nlinarith)
      (fun e he => by constructor <;> nlinarith)
  · exact siginv_of_shape (news_analyze_shape sym data ctx) hpos
      (by norm_num) (by norm_num)
      (fun e he => by constructor <;> nlinarith)
      (fun e he => by constructor <;> nlinarith)
  · exact siginv_of_shape (scalping_analyze_shape sym data ctx) hpos
      (by norm_num) (by norm_num)
      (fun e he => by constructor <;> nlinarith)
      (fun e he => by constructor <;> nlinarith)
  · obtain ⟨ht, hcf, hsl, htp⟩ := pattern_always_hold sym data ctx
    show SignalInvariant (PatternRecognitionBot.analyze sym data ctx)
    refine ⟨by rw [hcf], by rw [hcf]; norm_num, fun _ => ⟨hcf, hsl, htp⟩, ?_, ?_⟩
    · intro hh; rw [ht] at hh; cases hh
    · intro hh; rw [ht] at hh; cases hh
  · exact siginv_of_shape (meanrev_analyze_shape sym data ctx) hpos
      (by norm_num) (by norm_num)
      (fun e he => by constructor <;> nlinarith)
      (fun e he => by constructor <;> nlinarith)
  · cases h

/-- C2 witness: the invariant, concretely, for a Buy emitted by the
arbitrage bot on a one-bar series with a 2% spread. -/
theorem c2_signal_invariant_witness :
    SignalInvariant (cryptoArbitrageBot.analyze "BTC"
      [{ open_ := 100, high := 102, low := 100, close := 100, volume := 1000 }]
      { news_sentiment := none }) :=
  c2_signal_invariant cryptoArbitrageBot (by simp [allBots]) "BTC"
    [{ open_ := 100, high := 102, low := 100, close := 100, volume := 1000 }]
    { news_sentiment := none } (by intro b hb; simp at hb; rw [hb]; norm_num)

/-- C9: whenever any strategy's `analyze` returns a non-Hold signal, that
same strategy's `validate_signal` accepts it — each bot's hard-coded
non-Hold confidence constant exceeds its own confidence floor. -/
theorem c9_self_validation :
    ∀ bot ∈ allBots, ∀ (sym : String) (data : List Bar) (ctx : MarketCtx),
      (bot.analyze sym data ctx).signal_type ≠ .hold →
      bot.validate (bot.analyze sym data ctx) ctx = true := by
  intro bot hbot sym data ctx hne
  simp only [allBots, List.mem_cons, List.mem_singleton] at hbot
  rcases hbot with rfl | rfl | rfl | rfl | rfl | rfl | rfl | rfl | h
  · have hc := conf_of_shape (momentum_analyze_shape sym data ctx) hne
    simp [momentumBot, MomentumBot.validate_signal, hc]
    norm_num
  · have hc := conf_of_shape (grid_analyze_shape sym data ctx) hne
    simp [gridTradingBot, GridTradingBot.validate_signal, hc]
    norm_num
  · have hc := conf_of_shape (arbitrage_analyze_shape sym data ctx) hne
    simp [cryptoArbitrageBot, CryptoArbitrageBot.validate_signal, hc]
    norm_num
  · have hc := conf_of_shape (fibonacci_analyze_shape sym data ctx) hne
    simp [fibonacciTrader, FibonacciTrader.validate_signal, hc]
    norm_num
  · have hc := conf_of_shape (news_analyze_shape sym data ctx) hne
    simp [newsSentinelBot, NewsSentinelBot.validate_signal, hc]
    norm_num
  · have hc := conf_of_shape (scalping_analyze_shape sym data ctx) hne
    simp [scalpingBot, ScalpingBot.validate_signal, hc]
    norm_num
  · exact absurd (pattern_always_hold sym data ctx).1 hne
  · have hc := conf_of_shape (meanrev_analyze_shape sym data ctx) hne
    simp [meanReversionBot, MeanReversionBot.validate_signal, hc]
    norm_num
  · cases h

/-- C9 witness: the arbitrage bot emits a non-Hold Buy on a one-bar series
with a 2% spread, and its own validator accepts it. -/
theorem c9_self_validation_witness :
    (cryptoArbitrageBot.analyze "BTC"
        [{ open_ := 100, high := 102, low := 100, close := 100, volume := 1000 }]
        { news_sentiment := none }).signal_type ≠ .hold ∧
    cryptoArbitrageBot.validate
      (cryptoArbitrageBot.analyze "BTC"
        [{ open_ := 100, high := 102, low := 100, close := 100, volume := 1000 }]
        { news_sentiment := none })
      { news_sentiment := none } = true :=
  ⟨by with_unfolding_all decide,
   c9_self_validation cryptoArbitrageBot (by simp [allBots]) "BTC"
    [{ open_ := 100, high := 102, low := 100, close := 100, volume := 1000 }]
    { news_sentiment := none } (by with_unfolding_all decide)⟩

/-- C1: `analyze` is total (it is a function into `Signal`), and whenever
the `try:`-block body faults, the returned signal is a Hold with confidence
0, zero stop/target, and a reason string that records the fault (it starts
with `"Error"`). -/
theorem c1_fault_to_hold :
    ∀ bot ∈ allBots, ∀ (sym : String) (data : List Bar) (ctx : MarketCtx) (e : String),
      bot.analyzeCore sym data ctx = .error e →
      (bot.analyze sym data ctx).signal_type = .hold ∧
      (bot.analyze sym data ctx).confidence = 0 ∧
      (bot.analyze sym data ctx).stop_loss = 0 ∧
      (bot.analyze sym data ctx).take_profit = 0 ∧
      ∃ rest, (bot.analyze sym data ctx).reason = "Error" ++ rest := by
  intro bot hbot sym data ctx e he
  simp only [allBots, List.mem_cons, List.mem_singleton] at hbot
  rcases hbot with rfl | rfl | rfl | rfl | rfl | rfl | rfl | rfl | h
  · simp only [momentumBot] at he ⊢
    simp only [MomentumBot.analyze, he, MomentumBot.create_hold_signal]
    refine ⟨by trivial, by trivial, by trivial, by trivial, ": " ++ e, ?_⟩
    rw [← String.append_assoc]
    congr 1
  · simp only [gridTradingBot] at he ⊢
    simp only [GridTradingBot.analyze, he]
    exact ⟨by trivial, by trivial, by trivial, by trivial, "", by trivial⟩
  · simp only [cryptoArbitrageBot] at he ⊢
    simp only [CryptoArbitrageBot.analyze, he]
    exact ⟨by trivial, by trivial, by trivial, by trivial, "", by trivial⟩
  · simp only [fibonacciTrader] at he ⊢
    simp only [FibonacciTrader.analyze, he]
    refine ⟨by trivial, by trivial, by trivial, by trivial, ": " ++ e, ?_⟩
    rw [← String.append_assoc]
    congr 1
  · simp only [newsSentinelBot] at he ⊢
    simp only [NewsSentinelBot.analyze, he]
    exact ⟨by trivial, by trivial, by trivial, by trivial, "", by trivial⟩
  · simp only [scalpingBot] at he ⊢
    simp only [ScalpingBot.analyze, he]
    exact ⟨by trivial, by trivial, by trivial, by trivial, "", by trivial⟩
  · simp only [patternRecognitionBot] at he ⊢
    simp only [PatternRecognitionBot.analyze, he]
    exact ⟨by trivial, by trivial, by trivial, by trivial, ": Error", by trivial⟩
  · simp only [meanReversionBot] at he ⊢
    simp only [MeanReversionBot.analyze, he]
    refine ⟨by trivial, by trivial, by trivial, by trivial, ": " ++ e, ?_⟩
    rw [← String.append_assoc]
    congr 1
  · cases h

/-- C1 witness: the momentum bot on the empty series faults inside the
`try:` block (out-of-bounds `iloc[-1]`) and `analyze` converts the fault to
the degenerate Hold with an `"Error: ..."` reason. -/
theorem c1_fault_to_hold_witness :
    momentumBot.analyzeCore "AAPL" [] { news_sentiment := none } =
      .error "single positional indexer is out-of-bounds" ∧
    (momentumBot.analyze "AAPL" [] { news_sentiment := none }).signal_type = .hold ∧
    (momentumBot.analyze "AAPL" [] { news_sentiment := none }).confidence = 0 :=
  ⟨rfl,
   (c1_fault_to_hold momentumBot (by simp [allBots]) "AAPL" [] { news_sentiment := none }
     "single positional indexer is out-of-bounds" rfl).1,
   (c1_fault_to_hold momentumBot (by simp [allBots]) "AAPL" [] { news_sentiment := none }
     "single positional indexer is out-of-bounds" rfl).2.1⟩

/-- C10: the crypto arbitrage strategy's `analyze` never emits a Sell — its
decision logic only has a Buy branch and a Hold fallthrough, and the
`except:` path is also a Hold. -/
theorem c10_arbitrage_one_sided (sym : String) (data : List Bar) (ctx : MarketCtx) :
    (cryptoArbitrageBot.analyze sym data ctx).signal_type = .buy ∨
    (cryptoArbitrageBot.analyze sym data ctx).signal_type = .hold := by
  have h := arbitrage_never_sell sym data ctx
  cases ht : (cryptoArbitrageBot.analyze sym data ctx).signal_type
  · exact Or.inl rfl
  · exact absurd ht h
  · exact Or.inr rfl


/-- Monotonicity in portfolio value of the risk-budget/per-share-risk
sizing pattern shared by the momentum, mean-reversion and news bots. -/
theorem risk_cap_size_mono (e sl cap r pv₁ pv₂ : ℚ) (hcap : 0 ≤ cap) (hr : 0 ≤ r)
    (he : 0 ≤ e) (hpv : pv₁ ≤ pv₂) :
    (if |e - sl| = 0 then 0 else min (pv₁ * r / |e - sl| * e) (pv₁ * cap)) ≤
    (if |e - sl| = 0 then 0 else min (pv₂ * r / |e - sl| * e) (pv₂ * cap)) := by
  by_cases h : |e - sl| = 0
  · simp [h]
  · have hpr : 0 < |e - sl| := lt_of_le_of_ne (abs_nonneg _) (Ne.symm h)
    simp only [if_neg h]
    apply min_le_min
    · have h1 : pv₁ * r / |e - sl| * e = pv₁ * (r / |e - sl| * e) := by ring
      have h2 : pv₂ * r / |e - sl| * e = pv₂ * (r / |e - sl| * e) := by ring
      rw [h1, h2]
      exact mul_le_mul_of_nonneg_right hpv (mul_nonneg (div_nonneg hr hpr.le) he)
    · exact mul_le_mul_of_nonneg_right hpv hcap

/-- C8 counterexample: `GridTradingBot.calculate_position_size` does NOT
return 0 when `entry_price = stop_loss` — it ignores the per-share risk and
returns its fixed grid size (1000 at portfolio 10000). -/
theorem c8_counterexample :
    zero_risk_signal.entry_price = zero_risk_signal.stop_loss ∧
    GridTradingBot.calculate_position_size zero_risk_signal 10000 0.02 = 1000 ∧
    GridTradingBot.calculate_position_size zero_risk_signal 10000 0.02 ≠ 0 := by
  refine ⟨rfl, ?_, ?_⟩ <;>
    norm_num [GridTradingBot.calculate_position_size, min_def]

/-- C8 amended: every strategy's `calculate_position_size` is monotonically
non-decreasing in `portfolio_value` (for a nonnegative risk fraction and
entry price, everything else fixed); the risk-based sizers (momentum,
mean-reversion, news) return exactly 0 when `entry_price = stop_loss`,
while the fixed-size sizers (grid, scalping, arbitrage) return their fixed
size regardless of the per-share risk. -/
theorem c8_amended :
    (∀ f ∈ position_sizers, ∀ (sig : Signal) (r pv₁ pv₂ : ℚ),
      0 ≤ r → 0 ≤ sig.entry_price → pv₁ ≤ pv₂ → f sig pv₁ r ≤ f sig pv₂ r) ∧
    (∀ (sig : Signal) (pv r : ℚ), sig.entry_price = sig.stop_loss →
      MomentumBot.calculate_position_size sig pv r = 0 ∧
      MeanReversionBot.calculate_position_size sig pv r = 0 ∧
      NewsSentinelBot.calculate_position_size sig pv r = 0) := by
  constructor
  · intro f hf sig r pv₁ pv₂ hr he hpv
    simp only [position_sizers, List.mem_cons, List.mem_singleton] at hf
    rcases hf with rfl | rfl | rfl | rfl | rfl | rfl | h
    · simp only [MomentumBot.calculate_position_size]
      exact risk_cap_size_mono _ _ _ _ _ _ (by norm_num) hr he hpv
    · simp only [GridTradingBot.calculate_position_size]
      exact min_le_min (le_refl 1000) (mul_le_mul_of_nonneg_right hpv (by norm_num))
    · simp only [CryptoArbitrageBot.calculate_position_size]
      exact min_le_min (mul_le_mul_of_nonneg_right hpv (by norm_num)) (le_refl 50000)
    · simp only [NewsSentinelBot.calculate_position_size]
      exact risk_cap_size_mono _ _ _ _ _ _ (by norm_num) hr he hpv
    · simp only [ScalpingBot.calculate_position_size]
      exact min_le_min (mul_le_mul_of_nonneg_right hpv (by norm_num)) (le_refl 10000)
    · simp only [MeanReversionBot.calculate_position_size]
      exact risk_cap_size_mono _ _ _ _ _ _ (by norm_num) hr he hpv
    · cases h
  · intro sig pv r hes
    refine ⟨?_, ?_, ?_⟩ <;>
      simp [MomentumBot.calculate_position_size, MeanReversionBot.calculate_position_size,
        NewsSentinelBot.calculate_position_size, hes]

/-- C8 witness: the momentum sizer returns 0 on zero per-share risk, and
the grid sizer is monotone between portfolio values 1000 and 2000. -/
theorem c8_amended_witness :
    MomentumBot.calculate_position_size zero_risk_signal 5000 0.02 = 0 ∧
    GridTradingBot.calculate_position_size zero_risk_signal 1000 0.02 ≤
      GridTradingBot.calculate_position_size zero_risk_signal 2000 0.02 :=
  ⟨(c8_amended.2 zero_risk_signal 5000 0.02 rfl).1,
   c8_amended.1 GridTradingBot.calculate_position_size (by simp [position_sizers])
     zero_risk_signal 0.02 1000 2000 (by norm_num)
     (by norm_num [zero_risk_signal]) (by norm_num)⟩

/-- A rolling max over a window that is not yet full is NaN. -/
theorem rollingLastMax_nan {n : ℕ} {xs : List ℚ} (h : xs.length < n) :
    rollingLastMax n xs = nan := by simp [rollingLastMax, h]

/-- A rolling min over a window that is not yet full is NaN. -/
theorem rollingLastMin_nan {n : ℕ} {xs : List ℚ} (h : xs.length < n) :
    rollingLastMin n xs = nan := by simp [rollingLastMin, h]

/-- A rolling mean over a window that is not yet full is NaN. -/
theorem rollingLastMean_nan {n : ℕ} {xs : List ℚ} (h : xs.length < n) :
    rollingLastMean n xs = nan := by simp [rollingLastMean, h]

/-- A rolling variance over a window that is not yet full is NaN. -/
theorem rollingLastVar_nan {n : ℕ} {xs : List ℚ} (h : xs.length < n) :
    rollingLastVar n xs = nan := by simp [rollingLastVar, h]

/-- C4 counterexample: the Fibonacci trader emits a Sell on a 2-bar series,
far below its configured 50-bar lookback (the 20-bar SMA is NaN, so the
trend defaults to `'downtrend'`, and the close sits exactly on the 0.5
retracement). -/
theorem c4_counterexample :
    fib_short_series.length < 50 ∧
    (FibonacciTrader.analyze "X" fib_short_series emptyCtx).signal_type = .sell := by
  constructor
  · norm_num [fib_short_series]
  · with_unfolding_all decide

/-- C4 amended: the strategies whose decision indicators all come from
rolling windows of the configured lookback — momentum (20), mean-reversion
(20), news-sentinel (20-bar volume spike) and grid (50) — return a Hold,
without faulting, on any shorter series; the Fibonacci strategy does not
(see the counterexample). -/
theorem c4_amended (sym : String) (data : List Bar) (ctx : MarketCtx) :
    (data.length < 20 →
      (MomentumBot.analyze sym data ctx).signal_type = .hold ∧
      (MeanReversionBot.analyze sym data ctx).signal_type = .hold ∧
      (NewsSentinelBot.analyze sym data ctx).signal_type = .hold) ∧
    (data.length < 50 →
      (GridTradingBot.analyze sym data ctx).signal_type = .hold) := by
  have h21 : PF.lt (num 2) (num 1) = false := by
    show decide ((2 : ℚ) < 1) = false
    exact decide_eq_false (by norm_num)
  constructor
  · intro h20
    refine ⟨?_, ?_, ?_⟩
    · match data, h20 with
      | [], _ =>
        simp [MomentumBot.analyze, MomentumBot.analyze_core,
          MomentumBot.calculate_indicators, MomentumBot.create_hold_signal]
      | b :: rest, h20 =>
        have hres : rollingLastMax 20 (b.high :: rest.map Bar.high) = nan :=
          rollingLastMax_nan (by simpa using h20)
        have hsup : rollingLastMin 20 (b.low :: rest.map Bar.low) = nan :=
          rollingLastMin_nan (by simpa using h20)
        simp [MomentumBot.analyze, MomentumBot.analyze_core,
          MomentumBot.calculate_indicators, lastE, MomentumBot.decide_signal,
          hres, hsup, PF.gt, PF.lt, MomentumBot.create_hold_signal]
    · match data, h20 with
      | [], _ =>
        simp [MeanReversionBot.analyze, MeanReversionBot.analyze_core,
          MeanReversionBot.calculate_indicators]
      | b :: rest, h20 =>
        have hsma : rollingLastMean 20 (b.close :: rest.map Bar.close) = nan :=
          rollingLastMean_nan (by simpa using h20)
        have hvar : rollingLastVar 20 (b.close :: rest.map Bar.close) = nan :=
          rollingLastVar_nan (by simpa using h20)
        simp [MeanReversionBot.analyze, MeanReversionBot.analyze_core,
          MeanReversionBot.calculate_indicators, lastE, MeanReversionBot.decide_signal,
          hsma, hvar, MeanReversionBot.belowLowerBand, MeanReversionBot.aboveUpperBand]
    · match data, h20 with
      | [], _ =>
        simp [NewsSentinelBot.analyze, NewsSentinelBot.analyze_core,
          NewsSentinelBot.calculate_indicators]
      | b :: rest, h20 =>
        have havg : rollingLastMean 20 (b.volume :: rest.map Bar.volume) = nan :=
          rollingLastMean_nan (by simpa using h20)
        simp [NewsSentinelBot.analyze, NewsSentinelBot.analyze_core,
          NewsSentinelBot.calculate_indicators, lastE, NewsSentinelBot.decide_signal,
          havg, PF.gt, PF.lt, h21]
  · intro h50
    match data, h50 with
    | [], _ =>
      simp [GridTradingBot.analyze, GridTradingBot.analyze_core,
        GridTradingBot.calculate_indicators]
    | b :: rest, h50 =>
      have hhi : rollingLastMax 50 (b.high :: rest.map Bar.high) = nan :=
        rollingLastMax_nan (by simpa using h50)
      have hlo : rollingLastMin 50 (b.low :: rest.map Bar.low) = nan :=
        rollingLastMin_nan (by simpa using h50)
      simp [GridTradingBot.analyze, GridTradingBot.analyze_core,
        GridTradingBot.calculate_indicators, lastE, GridTradingBot.decide_signal,
        hhi, hlo, PF.gt, PF.lt, PF.sub, PF.add, PF.neg, PF.div]

/-- C4 amended witness: the momentum and grid strategies hold on a one-bar
series. -/
theorem c4_amended_witness :
    (MomentumBot.analyze "X" [flatBar] emptyCtx).signal_type = .hold ∧
    (GridTradingBot.analyze "X" [flatBar] emptyCtx).signal_type = .hold :=
  ⟨((c4_amended "X" [flatBar] emptyCtx).1 (by norm_num)).1,
   (c4_amended "X" [flatBar] emptyCtx).2 (by norm_num)⟩

/-- C6: at every backtest step `i` the signal is a function of the prefix
`series[0..i]` only — two series agreeing on all bars before index `i`
yield the same step-`i` signal, for every strategy. -/
theorem c6_no_lookahead (bot : Strategy) (sym : String) (s₁ s₂ : List Bar)
    (ctx : MarketCtx) (i : ℕ) (h : s₁.take i = s₂.take i) :
    backtest_step_signal bot sym s₁ ctx i = backtest_step_signal bot sym s₂ ctx i := by
  simp [backtest_step_signal, h]

/-- C6 witness: two concrete series differing only from index 2 onwards
produce the same step-2 signal. -/
theorem c6_no_lookahead_witness :
    c6_series_a.take 2 = c6_series_b.take 2 ∧
    backtest_step_signal momentumBot "X" c6_series_a emptyCtx 2 =
      backtest_step_signal momentumBot "X" c6_series_b emptyCtx 2 :=
  ⟨rfl, c6_no_lookahead momentumBot "X" c6_series_a c6_series_b emptyCtx 2 rfl⟩

/-- C3 (documents the code bug): `run_backtest` reads the process-global
unseeded RNG stream — on the very same series and strategy, two different
global RNG states produce different trade logs and equity curves, and the
endpoint accepts no seed to pin the stream down. -/
theorem c3_backtest_rng_dependent :
    run_backtest cryptoArbitrageBot "BTC" c3_series emptyCtx (fun _ => 1) ≠
    run_backtest cryptoArbitrageBot "BTC" c3_series emptyCtx (fun _ => 1.02) := by
  with_unfolding_all decide

/-- The seed of a `foldl max` is bounded by the fold. -/
theorem foldl_max_le_self (a : ℚ) (l : List ℚ) : a ≤ l.foldl max a := by
  induction l generalizing a with
  | nil => exact le_refl a
  | cons b l ih => exact le_trans (le_max_left a b) (ih (max a b))

/-- Every member of a list is bounded by a `foldl max` over it. -/
theorem le_foldl_max (l : List ℚ) (a x : ℚ) (hx : x ∈ l) : x ≤ l.foldl max a := by
  induction l generalizing a with
  | nil => cases hx
  | cons b l ih =>
    rcases List.mem_cons.1 hx with rfl | hx'
    · exact le_trans (le_max_right a x) (foldl_max_le_self (max a x) l)
    · exact ih (max a b) hx'

/-- Every member of a list is at most its `qmax`. -/
theorem le_qmax {l : List ℚ} {x : ℚ} (hx : x ∈ l) : x ≤ qmax l := by
  cases l with
  | nil => cases hx
  | cons y ys =>
    rcases List.mem_cons.1 hx with rfl | hx'
    · exact foldl_max_le_self x ys
    · exact le_foldl_max ys y x hx'

/-- The seed of a `foldl min` bounds the fold from above. -/
theorem foldl_min_le_self (a : ℚ) (l : List ℚ) : l.foldl min a ≤ a := by
  induction l generalizing a with
  | nil => exact le_refl a
  | cons b l ih => exact le_trans (ih (min a b)) (min_le_left a b)

/-- A `foldl min` is below every member of the list. -/
theorem foldl_min_le (l : List ℚ) (a x : ℚ) (hx : x ∈ l) : l.foldl min a ≤ x := by
  induction l generalizing a with
  | nil => cases hx
  | cons b l ih =>
    rcases List.mem_cons.1 hx with rfl | hx'
    · exact le_trans (foldl_min_le_self (min a x) l) (min_le_right a x)
    · exact ih (min a b) hx'

/-- The minimum `qmin l` is below every member of the list. -/
theorem qmin_le {l : List ℚ} {x : ℚ} (hx : x ∈ l) : qmin l ≤ x := by
  cases l with
  | nil => cases hx
  | cons y ys =>
    rcases List.mem_cons.1 hx with rfl | hx'
    · exact foldl_min_le_self x ys
    · exact foldl_min_le ys y x hx'

/-- The last element of a list survives any `drop` that leaves the list
nonempty. -/
theorem getLast?_mem_drop {α : Type _} {xs : List α} {y : α}
    (hy : xs.getLast? = some y) : ∀ {k : ℕ}, k < xs.length → y ∈ xs.drop k := by
  induction xs with
  | nil => simp at hy
  | cons a l ih =>
    intro k hk
    cases k with
    | zero => simpa using mem_of_getLast?_eq hy
    | succ k' =>
      cases l with
      | nil => simp at hk
      | cons c t =>
        rw [List.getLast?_cons_cons] at hy
        rw [List.drop_succ_cons]
        exact ih hy (by simpa using Nat.lt_of_succ_lt_succ hk)

/-- The momentum bot holds on any series whose last bar is a sane OHLC bar
(`low ≤ close ≤ high`): the 20-bar rolling resistance includes the current
bar, so the close can never strictly exceed it, and symmetrically for the
support. -/
theorem momentum_sane_hold (sym : String) (data : List Bar) (ctx : MarketCtx)
    (hsane : ∀ b, data.getLast? = some b → b.close ≤ b.high ∧ b.low ≤ b.close) :
    (MomentumBot.analyze sym data ctx).signal_type = .hold := by
  match data with
  | [] =>
    simp [MomentumBot.analyze, MomentumBot.analyze_core,
      MomentumBot.calculate_indicators, MomentumBot.create_hold_signal]
  | b :: rest =>
    have hlast : (b :: rest).getLast? = some ((b :: rest).getLast (by simp)) := by
      simp [List.getLast?_eq_getLast]
    obtain ⟨hch, hlc⟩ := hsane ((b :: rest).getLast (by simp)) hlast
    have hA : PF.gt (num ((b :: rest).getLast (by simp)).close)
        (rollingLastMax 20 (b.high :: rest.map Bar.high)) = false := by
      by_cases hlen : (b.high :: rest.map Bar.high).length < 20
      · rw [rollingLastMax_nan hlen]; rfl
      · rw [rollingLastMax, if_neg hlen]
        show decide (qmax (lastWindow 20 (b.high :: rest.map Bar.high)) <
          ((b :: rest).getLast (by simp)).close) = false
        apply decide_eq_false
        apply not_lt_of_ge
        apply le_trans hch
        apply le_qmax
        apply getLast?_mem_drop (y := ((b :: rest).getLast (by simp)).high)
        · rw [show (b.high :: rest.map Bar.high) = (b :: rest).map Bar.high from rfl,
            List.getLast?_map, hlast]
          rfl
        · omega
    have hB : PF.lt (num ((b :: rest).getLast (by simp)).close)
        (rollingLastMin 20 (b.low :: rest.map Bar.low)) = false := by
      by_cases hlen : (b.low :: rest.map Bar.low).length < 20
      · rw [rollingLastMin_nan hlen]; rfl
      · rw [rollingLastMin, if_neg hlen]
        show decide (((b :: rest).getLast (by simp)).close <
          qmin (lastWindow 20 (b.low :: rest.map Bar.low))) = false
        apply decide_eq_false
        apply not_lt_of_ge
        apply le_trans' hlc
        apply qmin_le
        apply getLast?_mem_drop (y := ((b :: rest).getLast (by simp)).low)
        · rw [show (b.low :: rest.map Bar.low) = (b :: rest).map Bar.low from rfl,
            List.getLast?_map, hlast]
          rfl
        · omega
    simp [MomentumBot.analyze, MomentumBot.analyze_core,
      MomentumBot.calculate_indicators, lastE, MomentumBot.decide_signal,
      hA, hB, MomentumBot.create_hold_signal]

/-- On every prefix window of the synthetic geometric series the momentum
bot holds (every bar has `high = close = low`). -/
theorem momentum_geom_hold (sym : String) (ctx : MarketCtx) (i : ℕ) :
    (MomentumBot.analyze sym (geomSeries.take i) ctx).signal_type = .hold := by
  apply momentum_sane_hold
  intro b hb
  have hmem : b ∈ geomSeries := List.take_subset i geomSeries (mem_of_getLast?_eq hb)
  obtain ⟨n, _, rfl⟩ := List.mem_map.1 hmem
  simp [geomBar]

/-- C5 counterexample: on the strictly increasing 100-bar geometric series
the momentum strategy emits a Buy at NO evaluation window at all — the
rolling resistance includes the current bar, so the close never strictly
exceeds it (and the constant volume never clears the 1.5× threshold). -/
theorem c5_counterexample : momentum_geom_buy_windows = [] := by
  rw [momentum_geom_buy_windows]
  rw [List.filter_eq_nil_iff]
  intro i _
  rw [momentum_geom_hold]
  simp

/-- C5 amended: on the 100-bar geometric close-price series the momentum
strategy returns Hold at every evaluation window — in particular it never
emits a Buy (contrary to the claim) and never emits a Sell (the claim's
second half holds). -/
theorem c5_amended (sym : String) (ctx : MarketCtx) (i : ℕ) :
    (MomentumBot.analyze sym (geomSeries.take i) ctx).signal_type = .hold :=
  momentum_geom_hold sym ctx i

/-- The equity curve has one sample per trade plus the seed. -/
theorem equityAux_length (e : PF) (ts : List Trade) :
    (equityAux e ts).length = ts.length + 1 := by
  induction ts generalizing e with
  | nil => rfl
  | cons t ts ih => simp [equityAux, ih]

/-- The equity curve starts at its seed. -/
theorem equityAux_head (e : PF) (ts : List Trade) :
    (equityAux e ts).head? = some e := by
  cases ts <;> rfl

/-- The first sample of the equity curve is its seed. -/
theorem equityAux_get?_zero (e : PF) (ts : List Trade) :
    (equityAux e ts).get? 0 = some e := by
  cases ts <;> rfl

/-- The running last sample of the equity curve is the fold of the
compounding step over the trades. -/
theorem equityAux_getLastD (e d : PF) (ts : List Trade) :
    (equityAux e ts).getLastD d = ts.foldl next_equity e := by
  induction ts generalizing e d with
  | nil => rfl
  | cons t ts ih =>
    simp only [equityAux]
    rw [List.getLastD_cons]
    exact ih _ _

/-- Appending one trade appends one compounded sample. -/
theorem equityAux_append (e : PF) (ts : List Trade) (t : Trade) :
    equityAux e (ts ++ [t]) =
      equityAux e ts ++ [next_equity (ts.foldl next_equity e) t] := by
  induction ts generalizing e with
  | nil => rfl
  | cons t' ts ih => simp [equityAux, ih]

/-- The pointwise recurrence of the equity curve: each sample is the
previous one compounded by the corresponding trade. -/
theorem equityAux_get?_succ (ts : List Trade) :
    ∀ (e : PF) (j : ℕ) (t : Trade) (ej : PF), ts.get? j = some t →
      (equityAux e ts).get? j = some ej →
      (equityAux e ts).get? (j + 1) = some (next_equity ej t) := by
  induction ts with
  | nil => intro e j t ej h; simp at h
  | cons t0 ts ih =>
    intro e j t ej hjt hje
    cases j with
    | zero =>
      obtain rfl : t0 = t := by simpa using hjt
      obtain rfl : e = ej := by simpa [equityAux] using hje
      simp only [equityAux, List.get?_cons_succ]
      exact equityAux_get?_zero _ _
    | succ j' =>
      simp only [equityAux, List.get?_cons_succ] at hje ⊢
      exact ih _ j' t ej (by simpa using hjt) hje

/-- Compounding a real sample by a trade with real pnl is real. -/
theorem next_equity_num (a p : ℚ) (t : Trade) (hp : t.pnl_percent = num p) :
    next_equity (num a) t = num (a * (1 + p / 100)) := by
  simp only [next_equity, hp, PF.mul, PF.add, PF.div]
  rw [if_neg (by norm_num : ¬((100 : ℚ) = 0))]

/-- Every sample of the equity curve is a strictly positive rational,
provided the seed is positive and every trade's pnl is a rational not
below −2 (the lower bound of the modeled exit perturbation). -/
theorem equityAux_pos (ts : List Trade)
    (hts : ∀ t ∈ ts, ∃ p : ℚ, t.pnl_percent = num p ∧ (-2 : ℚ) ≤ p) :
    ∀ (q0 : ℚ), 0 < q0 → ∀ x ∈ equityAux (num q0) ts, ∃ q : ℚ, x = num q ∧ 0 < q := by
  induction ts with
  | nil =>
    intro q0 hq0 x hx
    obtain rfl : x = num q0 := by simpa [equityAux] using hx
    exact ⟨q0, rfl, hq0⟩
  | cons t ts ih =>
    intro q0 hq0 x hx
    obtain ⟨p, hp, hp2⟩ := hts t (List.mem_cons_self t ts)
    simp only [equityAux, List.mem_cons] at hx
    rcases hx with rfl | hx'
    · exact ⟨q0, rfl, hq0⟩
    · rw [next_equity_num q0 p t hp] at hx'
      have hpos : 0 < q0 * (1 + p / 100) := by
        have h1 : (0 : ℚ) < 1 + p / 100 := by linarith
        exact mul_pos hq0 h1
      exact ih (fun t' ht' => hts t' (List.mem_cons_of_mem _ ht')) _ hpos x hx'

/-- Fold invariance: a property preserved by each step holds of the fold. -/
theorem foldl_preserve {σ α : Type _} (f : σ → α → σ) (P : σ → Prop)
    (h : ∀ s a, P s → P (f s a)) : ∀ (l : List α) (s : σ), P s → P (l.foldl f s) := by
  intro l
  induction l with
  | nil => exact fun s hs => hs
  | cons a l ih => exact fun s hs => ih _ (h s a hs)

/-- A non-Hold signal of shape `SigShape` has a positive entry price when
the series' closes are positive (its entry is the last close). -/
theorem entry_pos_of_shape {data : List Bar} {conf : ℚ}
    {stopB tpB stopS tpS : ℚ → ℚ} {s : Signal}
    (h : SigShape data conf stopB tpB stopS tpS s)
    (hpos : ∀ b ∈ data, 0 < b.close) (hne : s.signal_type ≠ .hold) :
    0 < s.entry_price := by
  rcases h with ⟨ht, _⟩ | ⟨b, hb, hentry, _, _⟩
  · exact absurd ht hne
  · rw [hentry]
    exact hpos b (mem_of_getLast?_eq hb)

/-- Every registered bot's non-Hold signals carry a positive entry price on
positive-close data. -/
theorem allBots_entry_pos :
    ∀ bot ∈ allBots, ∀ (sym : String) (data : List Bar) (ctx : MarketCtx),
      (∀ b ∈ data, 0 < b.close) → (bot.analyze sym data ctx).signal_type ≠ .hold →
      0 < (bot.analyze sym data ctx).entry_price := by
  intro bot hbot sym data ctx hpos hne
  simp only [allBots, List.mem_cons, List.mem_singleton] at hbot
  rcases hbot with rfl | rfl | rfl | rfl | rfl | rfl | rfl | rfl | h
  · exact entry_pos_of_shape (momentum_analyze_shape sym data ctx) hpos hne
  · exact entry_pos_of_shape (grid_analyze_shape sym data ctx) hpos hne
  · exact entry_pos_of_shape (arbitrage_analyze_shape sym data ctx) hpos hne
  · exact entry_pos_of_shape (fibonacci_analyze_shape sym data ctx) hpos hne
  · exact entry_pos_of_shape (news_analyze_shape sym data ctx) hpos hne
  · exact entry_pos_of_shape (scalping_analyze_shape sym data ctx) hpos hne
  · exact absurd (pattern_always_hold sym data ctx).1 hne
  · exact entry_pos_of_shape (meanrev_analyze_shape sym data ctx) hpos hne
  · cases h

/-- The loop invariant of `run_backtest`: the equity curve is exactly the
compounding of the trade log from the 10000 seed, and every booked pnl is a
rational in `[-2, 5]` (the range of `(u - 1) * 100` for
`u ∈ [0.98, 1.05]`). -/
theorem run_backtest_props (bot : Strategy) (sym : String) (data : List Bar)
    (ctx : MarketCtx) (rng : ℕ → ℚ)
    (hrng : ∀ k, 0.98 ≤ rng k ∧ rng k ≤ 1.05)
    (hentry : ∀ i, (backtest_step_signal bot sym data ctx i).signal_type ≠ .hold →
      0 < (backtest_step_signal bot sym data ctx i).entry_price) :
    (run_backtest bot sym data ctx rng).2 =
      equityAux (num 10000) (run_backtest bot sym data ctx rng).1 ∧
    (∀ t ∈ (run_backtest bot sym data ctx rng).1,
      ∃ p : ℚ, t.pnl_percent = num p ∧ (-2 : ℚ) ≤ p ∧ p ≤ 5) := by
  have key := foldl_preserve (bt_step bot sym data ctx rng)
    (fun st => st.equity = equityAux (num 10000) st.trades ∧
      ∀ t ∈ st.trades, ∃ p : ℚ, t.pnl_percent = num p ∧ (-2 : ℚ) ≤ p ∧ p ≤ 5)
    ?_ (List.range' 20 (data.length - 20)) ⟨[], [num 10000], 0⟩ ⟨rfl, by simp⟩
  · exact key
  · intro st i hst
    obtain ⟨h1, h2⟩ := hst
    by_cases hh : (backtest_step_signal bot sym data ctx i).signal_type = .hold
    · simp only [bt_step, if_pos hh]
      exact ⟨h1, h2⟩
    · have hep : 0 < (backtest_step_signal bot sym data ctx i).entry_price := hentry i hh
      simp only [bt_step, if_neg hh]
      constructor
      · rw [h1, equityAux_getLastD, equityAux_append]
      · intro t' ht'
        rcases List.mem_append.1 ht' with holdmem | hnew
        · exact h2 t' holdmem
        · obtain rfl : t' = _ := by simpa using hnew
          obtain ⟨hu1, hu2⟩ := hrng st.draws
          set e := (backtest_step_signal bot sym data ctx i).entry_price with hedef
          set u := rng st.draws with hudef
          refine ⟨(u - 1) * 100, ?_, by linarith, by linarith⟩
          show PF.mul (PF.div (num (e * u - e)) (num e)) (num 100) = num ((u - 1) * 100)
          have hdiv : PF.div (num (e * u - e)) (num e) = num ((e * u - e) / e) := by
            simp only [PF.div]
            rw [if_neg (ne_of_gt hep)]
          rw [hdiv]
          show num ((e * u - e) / e * 100) = num ((u - 1) * 100)
          have : (e * u - e) / e = u - 1 := by
            field_simp
            ring
          rw [this]

/-- C7: for every strategy and every backtest run (on positive-close data,
with the RNG draws inside the `uniform(0.98, 1.05)` range): the equity
curve starts at the initial capital 10000, its length is the trade count
plus one, each subsequent sample is the previous sample compounded by
`(1 + pnl_percent/100)` of the corresponding trade, and every sample is a
strictly positive (real) value. -/
theorem c7_equity_curve :
    ∀ bot ∈ allBots, ∀ (sym : String) (data : List Bar) (ctx : MarketCtx) (rng : ℕ → ℚ),
      (∀ b ∈ data, 0 < b.close) → (∀ k, 0.98 ≤ rng k ∧ rng k ≤ 1.05) →
      (run_backtest bot sym data ctx rng).2.head? = some (num 10000) ∧
      (run_backtest bot sym data ctx rng).2.length =
        (run_backtest bot sym data ctx rng).1.length + 1 ∧
      (run_backtest bot sym data ctx rng).2 =
        equity_curve (run_backtest bot sym data ctx rng).1 ∧
      (∀ (j : ℕ) (t : Trade) (ej : PF),
        (run_backtest bot sym data ctx rng).1.get? j = some t →
        (run_backtest bot sym data ctx rng).2.get? j = some ej →
        (run_backtest bot sym data ctx rng).2.get? (j + 1) = some (next_equity ej t)) ∧
      (∀ x ∈ (run_backtest bot sym data ctx rng).2, ∃ q : ℚ, x = num q ∧ 0 < q) := by
  intro bot hbot sym data ctx rng hpos hrng
  have hentry : ∀ i, (backtest_step_signal bot sym data ctx i).signal_type ≠ .hold →
      0 < (backtest_step_signal bot sym data ctx i).entry_price := by
    intro i hne
    have hsub : ∀ b ∈ data.take i, 0 < b.close :=
      fun b hb => hpos b (List.take_subset i data hb)
    exact allBots_entry_pos bot hbot sym (data.take i) ctx hsub hne
  obtain ⟨h1, h2⟩ := run_backtest_props bot sym data ctx rng hrng hentry
  refine ⟨?_, ?_, ?_, ?_, ?_⟩
  · rw [h1]
    exact equityAux_head _ _
  · rw [h1, equityAux_length]
  · rw [h1]
    rfl
  · intro j t ej hjt hje
    rw [h1] at hje ⊢
    exact equityAux_get?_succ _ _ j t ej hjt hje
  · intro x hx
    rw [h1] at hx
    exact equityAux_pos _ (fun t ht => (h2 t ht).imp (fun p hp => ⟨hp.1, hp.2.1⟩))
      10000 (by norm_num) x hx

/-- C7 witness: the empty series yields no trades and the seeded equity
curve `[10000]`, satisfying the invariants. -/
theorem c7_equity_curve_witness :
    (run_backtest momentumBot "X" [] emptyCtx (fun _ => 1)).2.head? = some (num 10000) ∧
    (run_backtest momentumBot "X" [] emptyCtx (fun _ => 1)).2.length =
      (run_backtest momentumBot "X" [] emptyCtx (fun _ => 1)).1.length + 1 :=
  ⟨(c7_equity_curve momentumBot (by simp [allBots]) "X" [] emptyCtx (fun _ => 1)
      (by intro b hb; cases hb) (fun k => by norm_num)).1,
   (c7_equity_curve momentumBot (by simp [allBots]) "X" [] emptyCtx (fun _ => 1)
      (by intro b hb; cases hb) (fun k => by norm_num)).2.1⟩

end ProTrader
